import Mathlib

/-
Verification of the healthAI PII-anonymisation engine and emergency detector.

This file is a shallow embedding, in Lean 4, of the two core subsystems of
the repository:

  * backend/app/services/pii_anonymizer.py
      - Verhoeff / Luhn checksum validators
      - the medical-context line classifier
      - the India-centric regex pattern library and the regex detection engine
      - the entity merger
      - the reversible PIIMapping and the PIIAnonymiser facade with its audit log
  * backend/app/services/emergency_detector.py
      - the panic-value table and the three detection paths of
        detect_critical_values

Python strings are modelled as List Char.  Python regular expressions are
modelled by a small regular-expression AST together with a backtracking
matcher that follows the semantics of the re module (leftmost match,
ordered alternation, greedy and lazy quantifiers, character classes,
negative look-around on single characters, word boundaries); each pattern
of the source is transliterated construct by construct.  Machine floats
(confidence scores, lab values) are modelled as rationals; every score and
threshold appearing in the source is exactly representable.  Nondeterministic
externals (wall-clock time, uuid generation, the sha256 digest) are passed
in as explicit parameters and never inspected by the logic under proof.
-/

abbrev Str := List Char

/-- A character is an ASCII decimal digit (Python str.isdigit restricted to
the ASCII range actually exercised by the identifier patterns). -/
def isDigitC (c : Char) : Bool := 48 ≤ c.toNat && c.toNat ≤ 57

/-- Numeric value of an ASCII digit character. -/
def charVal (c : Char) : Nat := c.toNat - 48

/-- Python regex word character, ASCII range: [a-zA-Z0-9_]. -/
def isWordC (c : Char) : Bool :=
  (65 ≤ c.toNat && c.toNat ≤ 90) || (97 ≤ c.toNat && c.toNat ≤ 122) ||
  isDigitC c || c == '_'

/-- Python whitespace for str.strip and regex backslash-s, ASCII range:
space, tab, newline, carriage return, vertical tab, form feed. -/
def isPySpace (c : Char) : Bool :=
  c == ' ' || c == '\t' || c == '\n' || c == '\r' || c.toNat == 11 || c.toNat == 12

/-- ASCII lower-casing, as used by str.lower and case-insensitive matching
on the ASCII patterns of the source. -/
def toLowerC (c : Char) : Char :=
  if 65 ≤ c.toNat && c.toNat ≤ 90 then Char.ofNat (c.toNat + 32) else c

/-- ASCII upper-casing (used by str.title). -/
def toUpperC (c : Char) : Char :=
  if 97 ≤ c.toNat && c.toNat ≤ 122 then Char.ofNat (c.toNat - 32) else c

def lowerStr (s : Str) : Str := s.map toLowerC

/-- Python str.strip(): remove leading and trailing whitespace. -/
def pyStrip (s : Str) : Str :=
  ((s.dropWhile isPySpace).reverse.dropWhile isPySpace).reverse

/-- Python slice s[a:b] (with clamping, as in Python). -/
def pySlice (s : Str) (a b : Nat) : Str := (s.take b).drop a

/-- Python s[a:] suffix slice. -/
def pyDrop (s : Str) (a : Nat) : Str := s.drop a

/-- Python s[:b] front slice. -/
def pyTake (s : Str) (b : Nat) : Str := s.take b

/-
━━ Verhoeff checksum (pii_anonymizer.py lines 70-103) ━━
The dihedral multiplication table d, the permutation table p, and the
checksum routine operating on the reversed digit string.
-/

def verhoeffD : List (List Nat) :=
  [[0, 1, 2, 3, 4, 5, 6, 7, 8, 9],
   [1, 2, 3, 4, 0, 6, 7, 8, 9, 5],
   [2, 3, 4, 0, 1, 7, 8, 9, 5, 6],
   [3, 4, 0, 1, 2, 8, 9, 5, 6, 7],
   [4, 0, 1, 2, 3, 9, 5, 6, 7, 8],
   [5, 9, 8, 7, 6, 0, 4, 3, 2, 1],
   [6, 5, 9, 8, 7, 1, 0, 4, 3, 2],
   [7, 6, 5, 9, 8, 2, 1, 0, 4, 3],
   [8, 7, 6, 5, 9, 3, 2, 1, 0, 4],
   [9, 8, 7, 6, 5, 4, 3, 2, 1, 0]]

def verhoeffP : List (List Nat) :=
  [[0, 1, 2, 3, 4, 5, 6, 7, 8, 9],
   [1, 5, 7, 6, 2, 8, 3, 0, 9, 4],
   [5, 8, 0, 3, 7, 9, 6, 1, 4, 2],
   [8, 9, 1, 6, 0, 4, 3, 5, 2, 7],
   [9, 4, 5, 3, 1, 2, 6, 8, 7, 0],
   [4, 2, 8, 6, 5, 7, 3, 9, 0, 1],
   [2, 7, 9, 3, 8, 0, 6, 4, 1, 5],
   [7, 0, 4, 6, 9, 1, 3, 2, 5, 8]]

/-- Two-dimensional table lookup (total, used for the Verhoeff tables). -/
def tab2 (t : List (List Nat)) (i j : Nat) : Nat := (t.getD i []).getD j 0

/-- verhoeff_checksum(number): digits of the reversed string, folded through
the d and p tables; true iff the running check value ends at 0.  Returns
false on fewer than two digits. -/
def verhoeffChecksum (number : Str) : Bool :=
  let digits := (number.reverse.filter isDigitC).map charVal
  if digits.length < 2 then false
  else
    (digits.enum.foldl (fun c id => tab2 verhoeffD c (tab2 verhoeffP (id.1 % 8) id.2)) 0) == 0

/-- Elements of a list at even positions (Python step-2 slicing helper). -/
def everyOther : List Nat → List Nat
  | [] => []
  | [x] => [x]
  | x :: _ :: rest => x :: everyOther rest

/-- luhn_checksum(number): double every second digit from the right, sum the
decimal digits of the doubled values plus the undoubled digits; true iff the
total is divisible by 10.  Returns false on fewer than two digits. -/
def luhnChecksum (number : Str) : Bool :=
  let digits := (number.filter isDigitC).map charVal
  if digits.length < 2 then false
  else
    let odd := everyOther digits.reverse
    let even := everyOther (digits.reverse.drop 1)
    let total := odd.sum + (even.map (fun d => (d * 2) / 10 + (d * 2) % 10)).sum
    total % 10 == 0

/-
━━ Structural validators (pii_anonymizer.py lines 539-567) ━━
-/

inductive Validator where
  | verhoeff
  | luhn
  | pan
deriving DecidableEq, Repr

/-- validate_entity: dispatch on the validator attached to a pattern.
digits_only is the digit subsequence of the raw match. -/
def validateEntity (v : Option Validator) (rawText : Str) : Bool :=
  match v with
  | none => true
  | some .verhoeff =>
    let digitsOnly := rawText.filter isDigitC
    if digitsOnly.length ≠ 12 then false
    else if digitsOnly.headD ' ' == '0' || digitsOnly.headD ' ' == '1' then false
    else verhoeffChecksum digitsOnly
  | some .luhn =>
    let digitsOnly := rawText.filter isDigitC
    if digitsOnly.length < 13 || 19 < digitsOnly.length then false
    else luhnChecksum digitsOnly
  | some .pan =>
    let clean := pyStrip rawText
    if clean.length ≠ 10 then false
    else ("ABCFGHLJPT".data).contains (clean.getD 3 ' ')

example : luhnChecksum "4111111111111111".data = true := by decide
example : luhnChecksum "1234567890123456".data = false := by decide
example : validateEntity (some .verhoeff) "012345678901".data = false := by decide

/-
━━ Regular-expression engine ━━
A small AST covering exactly the constructs used by the pattern library of
pii_anonymizer.py (lines 260-532) and by the raw-text scanner of
emergency_detector.py: literals, character classes (with ranges and the
shorthand classes for digit, word and whitespace, possibly negated),
the dot, ordered alternation, greedy and lazy counted repetition, one
capturing group, negative look-behind and look-ahead on one-character
classes, the word boundary, and the Python dollar anchor.  The matcher is
a continuation-passing backtracking matcher with explicit fuel; it mirrors
the re module: leftmost match position, alternatives tried left to right,
greedy repetition prefers more iterations, lazy repetition prefers fewer.
-/

inductive ClsItem where
  | ch (c : Char)
  | range (lo hi : Char)
  | digit
  | word
  | space
  | nonSpace
deriving DecidableEq, Repr

inductive RE where
  | eps
  | lit (c : Char)
  | cls (neg : Bool) (items : List ClsItem)
  | dot
  | seq (a b : RE)
  | alt (a b : RE)
  | rep (lo : Nat) (hi : Option Nat) (lazy : Bool) (r : RE)
  | grp (r : RE)
  | nlb (items : List ClsItem)
  | nla (items : List ClsItem)
  | wordB
  | eosP
deriving Repr

/-- One class item matched against a character, under optional
case-insensitivity (Python IGNORECASE folds both directions). -/
def itemMatch (ifl : Bool) (c : Char) : ClsItem → Bool
  | .ch l => c == l || (ifl && toLowerC c == toLowerC l)
  | .range lo hi =>
    (lo ≤ c && c ≤ hi) ||
    (ifl && ((lo ≤ toLowerC c && toLowerC c ≤ hi) || (lo ≤ toUpperC c && toUpperC c ≤ hi)))
  | .digit => isDigitC c
  | .word => isWordC c
  | .space => isPySpace c
  | .nonSpace => !isPySpace c

def clsMatch (ifl : Bool) (neg : Bool) (items : List ClsItem) (c : Char) : Bool :=
  if neg then !(items.any (itemMatch ifl c)) else items.any (itemMatch ifl c)

abbrev Span := Nat × Nat
abbrev MRes := Option (Nat × Option Span)
abbrev MCont := Nat → Option Span → MRes

/-- The backtracking matcher.  matchRE ifl t fuel r pos g k attempts to match
r at position pos of t (g is the group captured so far) and calls the
continuation k on success; a continuation returning none causes
backtracking into the remaining alternatives. -/
def matchRE (ifl : Bool) (t : Str) : Nat → RE → Nat → Option Span → MCont → MRes
  | 0, _, _, _, _ => none
  | fuel + 1, r, pos, g, k =>
    match r with
    | .eps => k pos g
    | .lit c =>
      match t.get? pos with
      | some c2 => if c2 == c || (ifl && toLowerC c2 == toLowerC c) then k (pos + 1) g else none
      | none => none
    | .cls neg items =>
      match t.get? pos with
      | some c2 => if clsMatch ifl neg items c2 then k (pos + 1) g else none
      | none => none
    | .dot =>
      match t.get? pos with
      | some c2 => if c2 == '\n' then none else k (pos + 1) g
      | none => none
    | .seq a b => matchRE ifl t fuel a pos g (fun p g2 => matchRE ifl t fuel b p g2 k)
    | .alt a b =>
      match matchRE ifl t fuel a pos g k with
      | some res => some res
      | none => matchRE ifl t fuel b pos g k
    | .rep lo hi lz r1 =>
      match lo with
      | lo1 + 1 =>
        matchRE ifl t fuel r1 pos g
          (fun p g2 => matchRE ifl t fuel (.rep lo1 (hi.map (· - 1)) lz r1) p g2 k)
      | 0 =>
        match hi with
        | some 0 => k pos g
        | _ =>
          let hi2 := hi.map (· - 1)
          if lz then
            match k pos g with
            | some res => some res
            | none =>
              matchRE ifl t fuel r1 pos g
                (fun p g2 => matchRE ifl t fuel (.rep 0 hi2 lz r1) p g2 k)
          else
            match matchRE ifl t fuel r1 pos g
                (fun p g2 => matchRE ifl t fuel (.rep 0 hi2 lz r1) p g2 k) with
            | some res => some res
            | none => k pos g
    | .grp r1 => matchRE ifl t fuel r1 pos g (fun p _ => k p (some (pos, p)))
    | .nlb items =>
      match pos with
      | 0 => k pos g
      | p + 1 =>
        match t.get? p with
        | some c2 => if clsMatch ifl false items c2 then none else k pos g
        | none => k pos g
    | .nla items =>
      match t.get? pos with
      | some c2 => if clsMatch ifl false items c2 then none else k pos g
      | none => k pos g
    | .wordB =>
      let pw := match pos with
        | 0 => false
        | p + 1 => (t.get? p).any isWordC
      let nw := (t.get? pos).any isWordC
      if pw != nw then k pos g else none
    | .eosP =>
      if pos == t.length || (pos + 1 == t.length && t.get? pos == some '\n') then k pos g
      else none

/-- Fuel bound used for all concrete evaluations; the structural theorems in
this file do not depend on its value. -/
def reFuel (t : Str) : Nat := 100000 + t.length * 20000

/-- Try to match r anchored at position pos; returns the match end and the
captured group span, if any. -/
def reMatchAt (ifl : Bool) (t : Str) (r : RE) (pos : Nat) : MRes :=
  matchRE ifl t (reFuel t) r pos none (fun p g => some (p, g))

/-- One step list of re.finditer: scan positions left to right, emit the
leftmost match, continue after its end (advancing at least one position). -/
def finditerGo (ifl : Bool) (t : Str) (r : RE) : Nat → Nat → List (Span × Option Span)
  | _, 0 => []
  | pos, n + 1 =>
    if pos > t.length then []
    else
      match reMatchAt ifl t r pos with
      | some (e, g) => ((pos, e), g) :: finditerGo ifl t r (max e (pos + 1)) n
      | none => finditerGo ifl t r (pos + 1) n

def finditer (ifl : Bool) (t : Str) (r : RE) : List (Span × Option Span) :=
  finditerGo ifl t r 0 (t.length + 1)

/-- Sequence of regex nodes. -/
def rseq : List RE → RE
  | [] => .eps
  | [r] => r
  | r :: rest => .seq r (rseq rest)

/-- Ordered alternation of a list of nodes (left to right, as in the re
module). -/
def ralts : List RE → RE
  | [] => .eps
  | [r] => r
  | r :: rest => .alt r (ralts rest)

/-- Literal string as a regex. -/
def rchars (s : String) : RE := rseq (s.data.map RE.lit)

def rrep (lo hi : Nat) (r : RE) : RE := .rep lo (some hi) false r
def ropt (r : RE) : RE := rrep 0 1 r
def rplus (r : RE) : RE := .rep 1 none false r
def rstar (r : RE) : RE := .rep 0 none false r

/-
━━ Medical-context false-positive suppression (pii_anonymizer.py 204-242) ━━
-/

def medicalKeywords : List Str :=
  (["g/dl", "mg/dl", "mg/l", "mmol/l", "meq/l", "miu/l", "miu/ml",
    "ng/ml", "ng/dl", "pg/ml", "iu/l", "iu/ml", "u/l", "mcl", "/mcl",
    "cells/mcl", "million/mcl", "fl", "pg", "g%", "%", "mm/hr",
    "μmol/l", "µmol/l", "umol/l", "pmol/l", "nmol/l",
    "hemoglobin", "haemoglobin", "hb", "wbc", "rbc", "platelet",
    "glucose", "creatinine", "bun", "urea", "sodium", "potassium",
    "calcium", "chloride", "bilirubin", "albumin", "protein",
    "cholesterol", "triglyceride", "hdl", "ldl", "vldl",
    "tsh", "t3", "t4", "hba1c", "troponin", "bnp", "crp",
    "esr", "sgot", "sgpt", "alt", "ast", "alp", "ggt",
    "iron", "ferritin", "tibc", "transferrin", "vitamin",
    "phosphorus", "magnesium", "uric", "amylase", "lipase",
    "inr", "pt", "aptt", "fibrinogen", "d-dimer",
    "ref", "reference", "normal", "range",
    "count", "index", "ratio", "level", "value", "result"] : List String).map String.data

/-- Python startswith test on character lists. -/
def strHasPfx : Str → Str → Bool
  | [], _ => true
  | _ :: _, [] => false
  | c :: p2, d :: s2 => c == d && strHasPfx p2 s2

/-- Python substring containment test (the in operator on strings). -/
def strIn (p : Str) : Str → Bool
  | [] => p.isEmpty
  | c :: rest => strHasPfx p (c :: rest) || strIn p rest

/-- Index of the first newline of a string, if any. -/
def findNlIdx : Str → Option Nat
  | [] => none
  | c :: rest => if c = '\n' then some 0 else (findNlIdx rest).map (· + 1)

/-- text.rfind(newline, 0, start) + 1: start index of the line containing
offset start (0 when there is no preceding newline). -/
def lineStartAt (t : Str) (s : Nat) : Nat :=
  match findNlIdx (t.take s).reverse with
  | some k => s - k
  | none => 0

/-- text.find(newline, e): index of the first newline at or after e, or the
text length when there is none. -/
def findNlFrom (t : Str) (e : Nat) : Nat :=
  match findNlIdx (t.drop e) with
  | some k => e + k
  | none => t.length

/-- is_medical_context(text, start, end): true iff any configured keyword
occurs (lower-cased) on the newline-delimited line containing the span. -/
def isMedicalContext (t : Str) (s e : Nat) : Bool :=
  let line := lowerStr (pySlice t (lineStartAt t s) (findNlFrom t e))
  medicalKeywords.any (fun kw => strIn kw line)

/-
━━ The pattern library (pii_anonymizer.py lines 249-532) ━━
Each pattern definition below transliterates one _PatternDef of the source;
the original regular expression is quoted in the comment above it (with
APOS standing for the apostrophe character).
-/

def cDig : RE := .cls false [.digit]
def cSep : RE := .cls false [.space, .ch '-']
def cUpper : RE := .cls false [.range 'A' 'Z']
def cLower : RE := .cls false [.range 'a' 'z']
def cAlpha : RE := .cls false [.range 'a' 'z', .range 'A' 'Z']
def cHsp : RE := .cls true [.nonSpace, .ch '\n']
def cSpaceStar : RE := rstar (.cls false [.space])
def cSpacePlus : RE := .rep 1 none false (.cls false [.space])
def aposC : Char := Char.ofNat 39

structure PatternDef where
  entityType : String
  re : RE
  confidence : ℚ
  iFlag : Bool := false
  validator : Option Validator := none
  medicalCheck : Bool := false

-- Aadhaar: (?<!\d)(?:[2-9]\d\d\d)[\s\-]?(?:\d\d\d\d)[\s\-]?(?:\d\d\d\d)(?!\d)
def pdAadhaar : PatternDef :=
  { entityType := "AADHAAR"
    re := rseq [.nlb [.digit], .cls false [.range '2' '9'], rrep 3 3 cDig,
                ropt cSep, rrep 4 4 cDig, ropt cSep, rrep 4 4 cDig, .nla [.digit]]
    confidence := mkRat 92 100, validator := some .verhoeff, medicalCheck := true }

-- PAN: \b[A-Z]x3[ABCFGHLJPT][A-Z]\dx4[A-Z]\b
def pdPan : PatternDef :=
  { entityType := "PAN"
    re := rseq [.wordB, rrep 3 3 cUpper, .cls false ("ABCFGHLJPT".data.map ClsItem.ch),
                cUpper, rrep 4 4 cDig, cUpper, .wordB]
    confidence := mkRat 95 100, validator := some .pan }

-- Voter ID: \b[A-Z]x3\dx7\b
def pdVoterId : PatternDef :=
  { entityType := "VOTER_ID"
    re := rseq [.wordB, rrep 3 3 cUpper, rrep 7 7 cDig, .wordB]
    confidence := mkRat 88 100 }

-- Passport: \b[A-HJ-NP-WY][0-9]x7\b
def pdPassport : PatternDef :=
  { entityType := "PASSPORT"
    re := rseq [.wordB,
                .cls false [.range 'A' 'H', .range 'J' 'N', .range 'P' 'W', .ch 'Y'],
                rrep 7 7 (.cls false [.range '0' '9']), .wordB]
    confidence := mkRat 80 100, medicalCheck := true }

-- Driving licence: \b(?:AN|AP|...|WB)[\-\s]?\dx2[\-\s]?\dx4[\-\s]?\dx7\b
def dlStateCodes : List String :=
  ["AN", "AP", "AR", "AS", "BR", "CG", "CH", "DD", "DL", "GA", "GJ", "HP", "HR",
   "JH", "JK", "KA", "KL", "LA", "LD", "MH", "ML", "MN", "MP", "MZ", "NL", "OD",
   "OR", "PB", "PY", "RJ", "SK", "TN", "TS", "TR", "UK", "UP", "WB"]

def pdDrivingLicence : PatternDef :=
  { entityType := "DRIVING_LICENCE"
    re := rseq [.wordB, ralts (dlStateCodes.map rchars), ropt cSep, rrep 2 2 cDig,
                ropt cSep, rrep 4 4 cDig, ropt cSep, rrep 7 7 cDig, .wordB]
    confidence := mkRat 90 100 }

-- ABHA: (?<!\d)\dx2[\-\s]?\dx4[\-\s]?\dx4[\-\s]?\dx4(?!\d)
def pdAbha : PatternDef :=
  { entityType := "ABHA"
    re := rseq [.nlb [.digit], rrep 2 2 cDig, ropt cSep, rrep 4 4 cDig,
                ropt cSep, rrep 4 4 cDig, ropt cSep, rrep 4 4 cDig, .nla [.digit]]
    confidence := mkRat 82 100, medicalCheck := true }

-- IFSC: \b[A-Z]x4 0 [A-Z0-9]x6\b
def pdIfsc : PatternDef :=
  { entityType := "IFSC"
    re := rseq [.wordB, rrep 4 4 cUpper, .lit '0',
                rrep 6 6 (.cls false [.range 'A' 'Z', .range '0' '9']), .wordB]
    confidence := mkRat 92 100 }

-- Bank account, flag i: (?:a/?c|account|acct)[\s.:]*(?:no\.?\s*)?(\d[\d\s\-]r7-17\d)\b
def pdBankAccount : PatternDef :=
  { entityType := "BANK_ACCOUNT_NUMBER"
    re := rseq [ralts [rseq [.lit 'a', ropt (.lit '/'), .lit 'c'], rchars "account", rchars "acct"],
                rstar (.cls false [.space, .ch '.', .ch ':']),
                ropt (rseq [rchars "no", ropt (.lit '.'), cSpaceStar]),
                .grp (rseq [cDig, .rep 7 (some 17) false (.cls false [.digit, .space, .ch '-']), cDig]),
                .wordB]
    confidence := mkRat 88 100, iFlag := true }

-- UPI: \b[a-zA-Z0-9._-]+@(?:providers)\b  with IGNORECASE
def upiProviders : List String :=
  ["upi", "paytm", "ybl", "okhdfcbank", "okicici", "oksbi",
   "okaxis", "ibl", "apl", "axisbank", "icici", "sbi", "hdfcbank", "kotak",
   "indus", "federal", "rbl", "idbi", "boi", "pnb", "unionbank", "canara",
   "bob", "citi"]

def pdUpi : PatternDef :=
  { entityType := "UPI_ID"
    re := rseq [.wordB,
                .rep 1 none false (.cls false [.range 'a' 'z', .range 'A' 'Z',
                  .range '0' '9', .ch '.', .ch '_', .ch '-']),
                .lit '@', ralts (upiProviders.map rchars), .wordB]
    confidence := mkRat 95 100, iFlag := true }

-- Mobile phone: (?<!\d)(?:\+91[\-\s]?)?(?:0?[\-\s]?)?[6-9]\dx9(?!\d)
def pdPhoneMobile : PatternDef :=
  { entityType := "PHONE"
    re := rseq [.nlb [.digit], ropt (rseq [.lit '+', rchars "91", ropt cSep]),
                ropt (rseq [ropt (.lit '0'), ropt cSep]),
                .cls false [.range '6' '9'], rrep 9 9 cDig, .nla [.digit]]
    confidence := mkRat 90 100, medicalCheck := true }

-- Landline: (?<!\d)(?:\+91[\-\s]?)?0(?:11|20|22|33|40|44|79|80|\dr2-4)[\-\s]?\dr6-8(?!\d)
def pdPhoneLandline : PatternDef :=
  { entityType := "PHONE"
    re := rseq [.nlb [.digit], ropt (rseq [.lit '+', rchars "91", ropt cSep]), .lit '0',
                ralts ((["11", "20", "22", "33", "40", "44", "79", "80"].map rchars) ++
                       [.rep 2 (some 4) false cDig]),
                ropt cSep, .rep 6 (some 8) false cDig, .nla [.digit]]
    confidence := mkRat 85 100, medicalCheck := true }

-- Toll-free: (?<!\d)1(?:800|860)[\-\s]?\dx3[\-\s]?\dr4-5(?!\d)
def pdPhoneTollfree : PatternDef :=
  { entityType := "PHONE"
    re := rseq [.nlb [.digit], .lit '1', ralts [rchars "800", rchars "860"],
                ropt cSep, rrep 3 3 cDig, ropt cSep, .rep 4 (some 5) false cDig, .nla [.digit]]
    confidence := mkRat 92 100 }

-- Email: \b[a-zA-Z0-9](?:[a-zA-Z0-9_.+-]r0-62[a-zA-Z0-9])?@
--        [a-zA-Z0-9](?:[a-zA-Z0-9-]r0-61[a-zA-Z0-9])?(?:\.[a-zA-Z]r2-)+\b
def cAlnum : RE := .cls false [.range 'a' 'z', .range 'A' 'Z', .range '0' '9']

def pdEmail : PatternDef :=
  { entityType := "EMAIL"
    re := rseq [.wordB, cAlnum,
                ropt (rseq [.rep 0 (some 62) false
                              (.cls false [.range 'a' 'z', .range 'A' 'Z', .range '0' '9',
                                .ch '_', .ch '.', .ch '+', .ch '-']), cAlnum]),
                .lit '@', cAlnum,
                ropt (rseq [.rep 0 (some 61) false
                              (.cls false [.range 'a' 'z', .range 'A' 'Z', .range '0' '9',
                                .ch '-']), cAlnum]),
                .rep 1 none false (rseq [.lit '.', .rep 2 none false cAlpha]), .wordB]
    confidence := mkRat 95 100 }

-- Card number: (?<!\d)(?:\dx4[\s\-]?)r2-3\dr4-7(?!\d)
def pdCredit : PatternDef :=
  { entityType := "CREDIT_DEBIT_NUMBER"
    re := rseq [.nlb [.digit], .rep 2 (some 3) false (rseq [rrep 4 4 cDig, ropt cSep]),
                .rep 4 (some 7) false cDig, .nla [.digit]]
    confidence := mkRat 80 100, validator := some .luhn, medicalCheck := true }

-- Date of birth, flag i:
-- (?:d\.?o\.?b\.?|date\s+of\s+birth|born\s+on|birth\s*date)\s*[:=\-]?\s*
-- (\dr1-2[\/-]\dr1-2[\/-]\dr2-4)
def pdDob : PatternDef :=
  { entityType := "DATE_OF_BIRTH"
    re := rseq [ralts [rseq [.lit 'd', ropt (.lit '.'), .lit 'o', ropt (.lit '.'),
                             .lit 'b', ropt (.lit '.')],
                       rseq [rchars "date", cSpacePlus, rchars "of", cSpacePlus, rchars "birth"],
                       rseq [rchars "born", cSpacePlus, rchars "on"],
                       rseq [rchars "birth", cSpaceStar, rchars "date"]],
                cSpaceStar, ropt (.cls false [.ch ':', .ch '=', .ch '-']), cSpaceStar,
                .grp (rseq [.rep 1 (some 2) false cDig, .cls false [.ch '/', .ch '-'],
                            .rep 1 (some 2) false cDig, .cls false [.ch '/', .ch '-'],
                            .rep 2 (some 4) false cDig])]
    confidence := mkRat 93 100, iFlag := true }

-- Honorific name (case-sensitive):
-- (?:(?:Mr|Mrs|Ms|Dr|Prof|Shri|Smt)\.?[^\S\n]+)[A-Z][a-z]+(?:[^\S\n]+[A-Z][a-z]+)r0-4
def pdNameHonorific : PatternDef :=
  { entityType := "NAME"
    re := rseq [ralts (["Mr", "Mrs", "Ms", "Dr", "Prof", "Shri", "Smt"].map rchars),
                ropt (.lit '.'), .rep 1 none false cHsp,
                cUpper, .rep 1 none false cLower,
                rrep 0 4 (rseq [.rep 1 none false cHsp, cUpper, .rep 1 none false cLower])]
    confidence := mkRat 88 100 }

-- Labelled name, flag i:
-- (?:patient\s*(?:name)?|name|father(?:APOS?s)?\s*name|mother(?:APOS?s)?\s*name|
--  husband(?:APOS?s)?\s*name|(?:s|d|w|c)[\\/]o\.?)
-- [^\S\n]*[:=\-]?[^\S\n]*([A-Z][a-zA-Z]+(?:[^\S\n]+[A-Z][a-zA-Z]+)r0-4)
def relationLabel (who : String) : RE :=
  rseq [rchars who, ropt (rseq [ropt (.lit aposC), .lit 's']), cSpaceStar, rchars "name"]

def pdNameLabelled : PatternDef :=
  { entityType := "NAME"
    re := rseq [ralts [rseq [rchars "patient", cSpaceStar, ropt (rchars "name")],
                       rchars "name",
                       relationLabel "father", relationLabel "mother", relationLabel "husband",
                       rseq [ralts [.lit 's', .lit 'd', .lit 'w', .lit 'c'],
                             .cls false [.ch '\\', .ch '/'], .lit 'o', ropt (.lit '.')]],
                rstar cHsp, ropt (.cls false [.ch ':', .ch '=', .ch '-']), rstar cHsp,
                .grp (rseq [cUpper, .rep 1 none false cAlpha,
                            rrep 0 4 (rseq [.rep 1 none false cHsp, cUpper,
                                            .rep 1 none false cAlpha])])]
    confidence := mkRat 90 100, iFlag := true }

-- Labelled address, flag i:
-- (?:address|addr|residence|residential\s+address)\s*[:=\-]?\s*(.r10-200lazy)(?:\n|$)
def pdAddress : PatternDef :=
  { entityType := "ADDRESS"
    re := rseq [ralts [rchars "address", rchars "addr", rchars "residence",
                       rseq [rchars "residential", cSpacePlus, rchars "address"]],
                cSpaceStar, ropt (.cls false [.ch ':', .ch '=', .ch '-']), cSpaceStar,
                .grp (.rep 10 (some 200) true .dot),
                .alt (.lit '\n') .eosP]
    confidence := mkRat 85 100, iFlag := true }

-- Labelled PIN code, flag i:
-- (?:pin\s*(?:code)?|postal\s*code|zip)\s*[:=\-]?\s*([1-9]\dx5)\b
def pdPinLabelled : PatternDef :=
  { entityType := "PIN_CODE"
    re := rseq [ralts [rseq [rchars "pin", cSpaceStar, ropt (rchars "code")],
                       rseq [rchars "postal", cSpaceStar, rchars "code"],
                       rchars "zip"],
                cSpaceStar, ropt (.cls false [.ch ':', .ch '=', .ch '-']), cSpaceStar,
                .grp (rseq [.cls false [.range '1' '9'], rrep 5 5 cDig]), .wordB]
    confidence := mkRat 90 100, iFlag := true, medicalCheck := true }

-- Standalone PIN code: (?<!\d)[1-9]\dx5(?!\d)
def pdPinStandalone : PatternDef :=
  { entityType := "PIN_CODE"
    re := rseq [.nlb [.digit], .cls false [.range '1' '9'], rrep 5 5 cDig, .nla [.digit]]
    confidence := mkRat 55 100, medicalCheck := true }

-- Hospital / lab ID, flag i:
-- (?:uhid|mrn|mrd|patient\s*id|reg(?:istration)?\.?\s*no\.?|lab\s*(?:no|id|ref)\.?|
--  opd\s*no\.?|ipd\s*no\.?|sample\s*(?:id|no)\.?|barcode|accession)
-- \s*[:=\-#]?\s*([A-Z0-9][\w\-/]r3-20)
def pdHospitalId : PatternDef :=
  { entityType := "HOSPITAL_ID"
    re := rseq [ralts [rchars "uhid", rchars "mrn", rchars "mrd",
                       rseq [rchars "patient", cSpaceStar, rchars "id"],
                       rseq [rchars "reg", ropt (rchars "istration"), ropt (.lit '.'),
                             cSpaceStar, rchars "no", ropt (.lit '.')],
                       rseq [rchars "lab", cSpaceStar,
                             ralts [rchars "no", rchars "id", rchars "ref"], ropt (.lit '.')],
                       rseq [rchars "opd", cSpaceStar, rchars "no", ropt (.lit '.')],
                       rseq [rchars "ipd", cSpaceStar, rchars "no", ropt (.lit '.')],
                       rseq [rchars "sample", cSpaceStar,
                             ralts [rchars "id", rchars "no"], ropt (.lit '.')],
                       rchars "barcode", rchars "accession"],
                cSpaceStar, ropt (.cls false [.ch ':', .ch '=', .ch '-', .ch '#']), cSpaceStar,
                .grp (rseq [.cls false [.range 'A' 'Z', .range '0' '9'],
                            .rep 3 (some 20) false (.cls false [.word, .ch '-', .ch '/'])])]
    confidence := mkRat 88 100, iFlag := true }

-- IPv4: \b(?:(?:25[0-5]|2[0-4]\d|[01]?\d\d?)\.)x3(?:25[0-5]|2[0-4]\d|[01]?\d\d?)\b
def ipOctet : RE :=
  ralts [rseq [rchars "25", .cls false [.range '0' '5']],
         rseq [.lit '2', .cls false [.range '0' '4'], cDig],
         rseq [ropt (.cls false [.ch '0', .ch '1']), cDig, ropt cDig]]

def pdIpAddr : PatternDef :=
  { entityType := "IP_ADDRESS"
    re := rseq [.wordB, rrep 3 3 (rseq [ipOctet, .lit '.']), ipOctet, .wordB]
    confidence := mkRat 85 100 }

-- URL with scheme, IGNORECASE: https?://[^\s<>"APOS]+
def pdUrl : PatternDef :=
  { entityType := "URL"
    re := rseq [rchars "http", ropt (.lit 's'), rchars "://",
                .rep 1 none false (.cls true [.space, .ch '<', .ch '>', .ch '"', .ch aposC])]
    confidence := mkRat 90 100, iFlag := true }

/-- The ordered pattern table _PATTERNS. -/
def rePatterns : List PatternDef :=
  [pdAadhaar, pdPan, pdVoterId, pdPassport, pdDrivingLicence, pdAbha, pdIfsc,
   pdBankAccount, pdUpi, pdPhoneMobile, pdPhoneLandline, pdPhoneTollfree,
   pdEmail, pdCredit, pdDob, pdNameHonorific, pdNameLabelled, pdAddress,
   pdPinLabelled, pdPinStandalone, pdHospitalId, pdIpAddr, pdUrl]

/-
━━ Data model and regex detection engine (pii_anonymizer.py 123-131, 574-623) ━━
-/

structure PIIEntity where
  entityType : String
  text : Str
  start : Nat
  stop : Nat
  score : ℚ
  source : String
deriving DecidableEq, Repr

/-- The overlap test of _regex_detect guarding seen_spans (note: it uses only
two disjuncts and therefore does not detect the case where the new span
strictly contains an already-seen span). -/
def seenOverlap (seen : List Span) (sp : Span) : Bool :=
  seen.any (fun s =>
    (decide (s.1 ≤ sp.1) && decide (sp.1 < s.2)) ||
    (decide (s.1 < sp.2) && decide (sp.2 ≤ s.2)))

/-- Process the matches of one pattern, extending the accumulated entity list
and seen-span set exactly as the inner loop of _regex_detect does: group 1
is preferred when the pattern captures, overlapping spans are skipped, the
validator and the medical-context check gate acceptance. -/
def regexDetectPattern (t : Str) (pd : PatternDef)
    (acc : List PIIEntity × List Span) : List PIIEntity × List Span :=
  (finditer pd.iFlag t pd.re).foldl
    (fun acc m =>
      let sp : Span := match m.2 with
        | some gsp => gsp
        | none => m.1
      let matchedText := pySlice t sp.1 sp.2
      if seenOverlap acc.2 sp then acc
      else if !validateEntity pd.validator matchedText then acc
      else if pd.medicalCheck && isMedicalContext t sp.1 sp.2 then acc
      else
        (acc.1 ++ [{ entityType := pd.entityType, text := pyStrip matchedText,
                     start := sp.1, stop := sp.2, score := pd.confidence,
                     source := "regex" : PIIEntity }],
         acc.2 ++ [sp]))
    acc

/-- regex_detect(text): run every pattern of the table in order. -/
def regexDetect (t : Str) : List PIIEntity :=
  (rePatterns.foldl (fun acc pd => regexDetectPattern t pd acc) ([], [])).1

/-
━━ Generic helpers: stable insertion sort, association lists, decimal strings,
string replacement ━━
A stable sort agrees with the stable sort of the Python runtime whenever the
comparison is a total preorder, so insertion sort is a faithful model of
list.sort / sorted.
-/

def insBy {α : Type} (le : α → α → Bool) (x : α) : List α → List α
  | [] => [x]
  | y :: ys => if le x y then x :: y :: ys else y :: insBy le x ys

def sortBy {α : Type} (le : α → α → Bool) : List α → List α
  | [] => []
  | x :: xs => insBy le x (sortBy le xs)

def alGet {κ β : Type} [DecidableEq κ] (key : κ) : List (κ × β) → Option β
  | [] => none
  | (k, v) :: rest => if k = key then some v else alGet key rest

/-- Python dict assignment: update the value in place when the key exists,
append the pair otherwise (preserving insertion order). -/
def alSet {κ β : Type} [DecidableEq κ] (key : κ) (val : β) : List (κ × β) → List (κ × β)
  | [] => [(key, val)]
  | (k, v) :: rest => if k = key then (k, val) :: rest else (k, v) :: alSet key val rest

/-- Decimal digit string of a positive number (most significant first). -/
def natDigsF : Nat → Nat → Str
  | 0, _ => []
  | fuel+1, n => if n = 0 then [] else natDigsF fuel (n / 10) ++ [Char.ofNat (48 + n % 10)]

def natDigs (n : Nat) : Str := natDigsF n n

/-- Decimal representation of a natural number (str(n) in Python). -/
def natToStr (n : Nat) : Str := if n = 0 then ['0'] else natDigs n

/-- Python str.replace(old, new): replace every non-overlapping occurrence,
scanning left to right; replaced text is not rescanned.  (The module only
ever replaces non-empty placeholders, so the empty-pattern case is inert.) -/
def replaceAllF (p v : Str) : Nat → Str → Str
  | _, [] => []
  | 0, s => s
  | fuel+1, c :: rest =>
    if !p.isEmpty && strHasPfx p (c :: rest) then
      v ++ replaceAllF p v fuel (rest.drop (p.length - 1))
    else c :: replaceAllF p v fuel rest

def replaceAll (p v : Str) (s : Str) : Str := replaceAllF p v s.length s

/-
━━ Span-merge logic (pii_anonymizer.py lines 736-766) ━━
-/

/-- source_priority lookup with default 9. -/
def srcPriority (source : String) : Nat :=
  if source = "regex" then 0
  else if source = "comprehend" then 1
  else if source = "composite" then 2
  else 9

/-- Sort key order of _merge_entities: ascending in (-score, source
priority); le a b decides whether a may precede b. -/
def mergeKeyLE (a b : PIIEntity) : Bool :=
  decide (b.score < a.score) ||
  (decide (a.score = b.score) && decide (srcPriority a.source ≤ srcPriority b.source))

/-- The three-disjunct overlap test of the merge loop. -/
def mergeOverlap (occ : List Span) (e : PIIEntity) : Bool :=
  occ.any (fun s =>
    (decide (s.1 ≤ e.start) && decide (e.start < s.2)) ||
    (decide (s.1 < e.stop) && decide (e.stop ≤ s.2)) ||
    (decide (e.start ≤ s.1) && decide (s.1 < e.stop)))

/-- One step of the greedy acceptance loop of merge_entities. -/
def mergeStep (acc : List PIIEntity × List Span) (e : PIIEntity) :
    List PIIEntity × List Span :=
  if mergeOverlap acc.2 e then acc
  else (acc.1 ++ [e], acc.2 ++ [(e.start, e.stop)])

/-- merge_entities(primary, secondary): stable-sort the concatenation by
descending confidence (ties: source priority), then greedily accept
entities whose span does not overlap an already-occupied span. -/
def mergeEntities (primary secondary : List PIIEntity) : List PIIEntity :=
  ((sortBy mergeKeyLE (primary ++ secondary)).foldl mergeStep ([], [])).1

/-
━━ PIIMapping (pii_anonymizer.py lines 134-182) ━━
-/

structure PIIMapping where
  p2o : List (Str × Str)
  o2p : List (Str × Str)
  counts : List (String × Nat)
deriving DecidableEq, Repr

def PIIMapping.empty : PIIMapping := { p2o := [], o2p := [], counts := [] }

/-- The placeholder string [TYPE_n]. -/
def placeholderStr (entityType : String) (count : Nat) : Str :=
  '[' :: entityType.data ++ '_' :: natToStr count ++ [']']

/-- PIIMapping.add: return the existing placeholder when the original value
was already registered; otherwise mint the next [TYPE_n] for the entity
type and record it in both directions. -/
def PIIMapping.add (m : PIIMapping) (entityType : String) (original : Str) :
    Str × PIIMapping :=
  match alGet original m.o2p with
  | some p => (p, m)
  | none =>
    let count := (alGet entityType m.counts).getD 0 + 1
    let p := placeholderStr entityType count
    (p, { p2o := alSet p original m.p2o,
          o2p := alSet original p m.o2p,
          counts := alSet entityType count m.counts })

/-- PIIMapping.deanonymise: replace every placeholder by its original,
longest placeholder first (stable on equal lengths, following sorted with
a length key on the keys of the dict in insertion order). -/
def PIIMapping.deanonymise (m : PIIMapping) (t : Str) : Str :=
  let phs := sortBy (fun a b => decide (b.length ≤ a.length)) (m.p2o.map (·.1))
  phs.foldl (fun res p => replaceAll p ((alGet p m.p2o).getD []) res) t

/-- Serialized form of a mapping: the two dict fields of to_dict, either of
which may be absent in a corrupted payload. -/
structure MappingDict where
  p2o : Option (List (Str × Str))
  counts : Option (List (String × Nat))
deriving DecidableEq, Repr

/-- PIIMapping.to_dict. -/
def PIIMapping.toDict (m : PIIMapping) : MappingDict :=
  { p2o := some m.p2o, counts := some m.counts }

/-- PIIMapping.from_dict: d.get with default empty dict for both keys; the
inverse map is rebuilt by flipping the forward map. -/
def PIIMapping.fromDict (d : MappingDict) : PIIMapping :=
  let p2o := d.p2o.getD []
  { p2o := p2o, o2p := p2o.map (fun kv => (kv.2, kv.1)), counts := d.counts.getD [] }

/-
━━ PIIAnonymiser facade (pii_anonymizer.py lines 773-1001) ━━
-/

inductive RedactStrategy where
  | placeholder
  | mask
  | hash
deriving DecidableEq, Repr

def RedactStrategy.value : RedactStrategy → String
  | .placeholder => "placeholder"
  | .mask => "mask"
  | .hash => "hash"

def highRiskTypes : List String :=
  ["NAME", "ADDRESS", "DATE_OF_BIRTH",
   "AADHAAR", "PAN", "VOTER_ID", "PASSPORT", "DRIVING_LICENCE", "ABHA",
   "PHONE", "EMAIL", "UPI_ID",
   "CREDIT_DEBIT_NUMBER", "CREDIT_DEBIT_CVV", "CREDIT_DEBIT_EXPIRY",
   "BANK_ACCOUNT_NUMBER", "BANK_ROUTING", "IFSC",
   "SSN",
   "USERNAME", "PASSWORD", "AWS_ACCESS_KEY", "AWS_SECRET_KEY",
   "IP_ADDRESS", "MAC_ADDRESS", "URL",
   "HOSPITAL_ID", "PIN_CODE", "PIN"]

def keepTypes : List String := ["AGE", "DATE", "QUANTITY"]

/-- Audit log entry; event id, wall-clock timestamp and duration are
runtime externals threaded in as parameters. -/
structure PIIAuditEntry where
  eventId : Str
  timestamp : ℚ
  textLength : Nat
  entitiesDetected : Nat
  entitiesRedacted : Nat
  entityTypes : List String
  sourcesUsed : List String
  strategy : String
  durationMs : ℚ
deriving DecidableEq, Repr

/-- The runtime externals consumed by one anonymise call: uuid, clock and
the sha256 hex digest (only ever applied to entity text, never inspected). -/
structure AuditExt where
  eventId : Str
  timestamp : ℚ
  durationMs : ℚ
  hashHex : Str → Str

/-- Mutable state of a PIIAnonymiser instance. -/
structure AnonState where
  strategy : RedactStrategy
  auditEnabled : Bool
  auditLog : List PIIAuditEntry

/-- record_audit: no-op when audit is disabled; otherwise drop to the most
recent 5000 entries once the cap of 10000 is reached, then append. -/
def recordAudit (ext : AuditExt) (st : AnonState) (textLength detected redacted : Nat)
    (types sources : List String) (strategy : RedactStrategy) : AnonState :=
  if !st.auditEnabled then st
  else
    let entry : PIIAuditEntry :=
      { eventId := ext.eventId, timestamp := ext.timestamp, textLength := textLength,
        entitiesDetected := detected, entitiesRedacted := redacted,
        entityTypes := types, sourcesUsed := sources,
        strategy := strategy.value, durationMs := ext.durationMs }
    let log := if 10000 ≤ st.auditLog.length
               then st.auditLog.drop (st.auditLog.length - 5000)
               else st.auditLog
    { st with auditLog := log ++ [entry] }

/-- make_token: the replacement token for one detected entity under the
given redaction strategy. -/
def makeToken (hashHex : Str → Str) (e : PIIEntity) (m : PIIMapping)
    (strategy : RedactStrategy) : Str × PIIMapping :=
  match strategy with
  | .placeholder => m.add e.entityType e.text
  | .mask =>
    let m2 := (m.add e.entityType e.text).2
    (List.replicate (min e.text.length 20) '*', m2)
  | .hash =>
    let p : Str := '[' :: e.entityType.data ++ ':' :: hashHex e.text ++ [']']
    (p, { p2o := alSet p e.text m.p2o, o2p := alSet e.text p m.o2p, counts := m.counts })

/-- First-occurrence deduplication (models building a tuple from a set; the
iteration order of a Python set is arbitrary, and nothing proved here
inspects this field). -/
def dedupKeep : List String → List String
  | [] => []
  | x :: rest => if (dedupKeep rest).contains x then dedupKeep rest else x :: dedupKeep rest

/-- The merged-and-filtered entity list of an anonymise call, in the
descending start order in which redaction is applied (steps 2-3 of
anonymise plus the confidence/keep filter and the sort of step 4). -/
def anonymiseEntities (t : Str) (comprehendRes : List PIIEntity) (minConfidence : ℚ) :
    List PIIEntity :=
  let merged := mergeEntities (regexDetect t) comprehendRes
  let filtered := merged.filter
    (fun e => decide (minConfidence ≤ e.score) && !(keepTypes.contains e.entityType))
  sortBy (fun a b => decide (b.start ≤ a.start)) filtered

/-- One step of the redaction fold of anonymise: a high-risk or
comprehend-sourced entity is replaced by its token. -/
def redactStep (hashHex : Str → Str) (strategy : RedactStrategy)
    (acc : Str × PIIMapping × Nat) (e : PIIEntity) : Str × PIIMapping × Nat :=
  if highRiskTypes.contains e.entityType || e.source == "comprehend" then
    let tm := makeToken hashHex e acc.2.1 strategy
    (pyTake acc.1 e.start ++ tm.1 ++ pyDrop acc.1 e.stop, tm.2, acc.2.2 + 1)
  else acc

/-- The redaction fold of step 4 of anonymise. -/
def redactFold (hashHex : Str → Str) (strategy : RedactStrategy)
    (entities : List PIIEntity) (t : Str) : Str × PIIMapping × Nat :=
  entities.foldl (redactStep hashHex strategy) (t, PIIMapping.empty, 0)

/-- anonymise(text, ...): detect, merge, filter, redact, audit.  The
comprehendRes parameter stands for the entity list produced by the optional
Comprehend collaborator (none when no client is supplied, as in every
claim considered here). -/
def anonymise (ext : AuditExt) (st : AnonState) (t : Str)
    (comprehendRes : Option (List PIIEntity) := none)
    (minConfidence : ℚ := mkRat 55 100)
    (strategyOv : Option RedactStrategy := none) :
    (Str × PIIMapping) × AnonState :=
  let effStrategy := strategyOv.getD st.strategy
  if t.isEmpty || (pyStrip t).isEmpty then ((t, PIIMapping.empty), st)
  else
    let merged := mergeEntities (regexDetect t) (comprehendRes.getD [])
    if merged.isEmpty then
      ((t, PIIMapping.empty), recordAudit ext st t.length 0 0 [] [] effStrategy)
    else
      let entities := anonymiseEntities t (comprehendRes.getD []) minConfidence
      let folded := redactFold ext.hashHex effStrategy entities t
      let detectedTypes := folded.2.1.counts.map (·.1)
      let sources := dedupKeep
        ((entities.filter (fun e => highRiskTypes.contains e.entityType)).map (·.source))
      let st2 := recordAudit ext st t.length entities.length folded.2.2
        detectedTypes sources effStrategy
      ((folded.1, folded.2.1), st2)

/-
━━ Emergency detector (emergency_detector.py) ━━
Panic-value table (lines 23-136), the three detection paths of
detect_critical_values (147-200), the threshold check (230-270), the
raw-text scanner (272-294), numeric extraction (296-304) and alert
deduplication (306-311).  Lab values and thresholds are modelled as
rationals; every decimal literal of the table is exact.
-/

def isAlphaC (c : Char) : Bool :=
  (65 ≤ c.toNat && c.toNat ≤ 90) || (97 ≤ c.toNat && c.toNat ≤ 122)

/-- Python str.title(): a letter is upper-cased when the preceding character
is not a letter, lower-cased otherwise. -/
def pyTitleGo (prevAlpha : Bool) : Str → Str
  | [] => []
  | c :: rest =>
    (if isAlphaC c then (if prevAlpha then toLowerC c else toUpperC c) else c) ::
      pyTitleGo (isAlphaC c) rest

def pyTitle (s : String) : String := String.mk (pyTitleGo false s.data)

structure PanicRule where
  lowCritical : Option ℚ
  highCritical : Option ℚ
  unit : String
  lowMessage : Option String
  highMessage : Option String
  action : String
deriving DecidableEq, Repr

/-- PANIC_VALUES, in dict insertion order, messages and actions verbatim. -/
def panicValues : List (String × PanicRule) :=
  [("glucose",
    { lowCritical := some 50, highCritical := some 500, unit := "mg/dL",
      lowMessage := some "Dangerously low blood sugar (hypoglycemia). This can cause confusion, seizures, or loss of consciousness.",
      highMessage := some "Dangerously high blood sugar. This may indicate diabetic emergency (DKA or HHS).",
      action := "Seek emergency medical care immediately. Call 108 (ambulance) or go to the nearest hospital emergency room." }),
   ("fasting glucose",
    { lowCritical := some 50, highCritical := some 500, unit := "mg/dL",
      lowMessage := some "Dangerously low fasting blood sugar (hypoglycemia).",
      highMessage := some "Dangerously high fasting blood sugar. May indicate diabetic emergency.",
      action := "Seek emergency medical care immediately. Call 108 (ambulance) or go to the nearest hospital." }),
   ("potassium",
    { lowCritical := some (mkRat 5 2), highCritical := some (mkRat 13 2), unit := "mEq/L",
      lowMessage := some "Critically low potassium (hypokalemia). This can cause dangerous heart rhythm problems.",
      highMessage := some "Critically high potassium (hyperkalemia). This can cause life-threatening heart problems.",
      action := "This requires urgent medical attention. Contact a doctor or go to the emergency room immediately." }),
   ("sodium",
    { lowCritical := some 120, highCritical := some 160, unit := "mEq/L",
      lowMessage := some "Severely low sodium (hyponatremia). This can cause brain swelling, confusion, and seizures.",
      highMessage := some "Severely high sodium (hypernatremia). This can cause brain damage and seizures.",
      action := "Seek medical attention urgently. Go to the nearest hospital." }),
   ("calcium",
    { lowCritical := some 6, highCritical := some 13, unit := "mg/dL",
      lowMessage := some "Dangerously low calcium. This can cause muscle spasms, seizures, and heart problems.",
      highMessage := some "Dangerously high calcium. This can cause confusion, kidney damage, and heart problems.",
      action := "Contact a doctor or visit the hospital immediately." }),
   ("hemoglobin",
    { lowCritical := some 5, highCritical := some 20, unit := "g/dL",
      lowMessage := some "Critically low hemoglobin — severe anemia. You may need an urgent blood transfusion.",
      highMessage := some "Dangerously high hemoglobin. This can increase risk of blood clots and stroke.",
      action := "Seek emergency medical care. Call 108 or go to the nearest hospital immediately." }),
   ("hb",
    { lowCritical := some 5, highCritical := some 20, unit := "g/dL",
      lowMessage := some "Critically low hemoglobin — severe anemia. You may need an urgent blood transfusion.",
      highMessage := some "Dangerously high hemoglobin. This can increase risk of blood clots and stroke.",
      action := "Seek emergency medical care. Call 108 or go to the nearest hospital immediately." }),
   ("platelets",
    { lowCritical := some 20000, highCritical := some 1000000, unit := "/mcL",
      lowMessage := some "Critically low platelet count. This puts you at serious risk of uncontrolled bleeding.",
      highMessage := some "Extremely high platelet count. This can cause dangerous blood clots.",
      action := "Seek immediate medical attention. Do not ignore this result." }),
   ("wbc",
    { lowCritical := some 1000, highCritical := some 30000, unit := "cells/mcL",
      lowMessage := some "Dangerously low white blood cell count. Your body cannot fight infections properly.",
      highMessage := some "Very high white blood cell count. This may indicate a severe infection or other serious condition.",
      action := "Contact a doctor urgently. Avoid exposure to sick people if WBC is low." }),
   ("creatinine",
    { lowCritical := none, highCritical := some 10, unit := "mg/dL",
      lowMessage := none,
      highMessage := some "Very high creatinine indicates severe kidney impairment. Dialysis may be needed.",
      action := "Seek urgent medical care. Go to a hospital with nephrology (kidney) services." }),
   ("bilirubin",
    { lowCritical := none, highCritical := some 15, unit := "mg/dL",
      lowMessage := none,
      highMessage := some "Dangerously high bilirubin. This may indicate severe liver disease or bile duct blockage.",
      action := "Seek urgent medical attention. Go to the nearest hospital." }),
   ("inr",
    { lowCritical := none, highCritical := some 5, unit := "",
      lowMessage := none,
      highMessage := some "Very high INR — extremely high bleeding risk. Any injury could cause dangerous bleeding.",
      action := "Seek immediate medical attention. Avoid any physical injury. Contact your doctor about medication adjustment." }),
   ("troponin",
    { lowCritical := none, highCritical := some (mkRat 2 5), unit := "ng/mL",
      lowMessage := none,
      highMessage := some "Elevated troponin may indicate heart muscle damage or heart attack.",
      action := "This is potentially life-threatening. Call 108 (ambulance) or go to the nearest hospital immediately." }),
   ("tsh",
    { lowCritical := some (mkRat 1 100), highCritical := some 50, unit := "mIU/L",
      lowMessage := some "Extremely low TSH may indicate thyroid storm (a dangerous overactive thyroid).",
      highMessage := some "Extremely high TSH indicates severe hypothyroidism (myxedema). This can be dangerous.",
      action := "Contact a doctor urgently for thyroid evaluation and treatment." })]

structure EmergencyAlert where
  testName : String
  value : ℚ
  unit : String
  thresholdValue : ℚ
  direction : String
  severity : String
  message : Option String
  action : String
deriving DecidableEq, Repr

/-- check_against_panic(test_name, value): exact table lookup, then the
first partial (substring either way) match; inclusive threshold
comparisons, low checked before high. -/
def checkAgainstPanic (testName : String) (value : ℚ) : Option EmergencyAlert :=
  let found : Option (String × PanicRule) :=
    match alGet testName panicValues with
    | some p => some (testName, p)
    | none =>
      panicValues.find? (fun np =>
        strIn np.1.data testName.data || strIn testName.data np.1.data)
  match found with
  | none => none
  | some (name, panic) =>
    match panic.lowCritical with
    | some low =>
      if value ≤ low then
        some { testName := pyTitle name, value := value, unit := panic.unit,
               thresholdValue := low, direction := "critically_low",
               severity := "critical", message := panic.lowMessage,
               action := panic.action }
      else
        match panic.highCritical with
        | some high =>
          if high ≤ value then
            some { testName := pyTitle name, value := value, unit := panic.unit,
                   thresholdValue := high, direction := "critically_high",
                   severity := "critical", message := panic.highMessage,
                   action := panic.action }
          else none
        | none => none
    | none =>
      match panic.highCritical with
      | some high =>
        if high ≤ value then
          some { testName := pyTitle name, value := value, unit := panic.unit,
                 thresholdValue := high, direction := "critically_high",
                 severity := "critical", message := panic.highMessage,
                 action := panic.action }
        else none
      | none => none

/-- extract_numeric: first maximal digit run, with an optional fractional
part, as an exact rational (the digits are accumulated as a natural-number
mantissa and divided once by the power of ten of the fractional length). -/
def natOfDigits (l : Str) : Nat := l.foldl (fun a c => a * 10 + charVal c) 0

def parseDecimal (intDigs fracDigs : Str) : ℚ :=
  mkRat (natOfDigits (intDigs ++ fracDigs)) (10 ^ fracDigs.length)

def extractNumeric : Str → Option ℚ
  | [] => none
  | c :: rest =>
    if isDigitC c then
      let ds := (c :: rest).takeWhile isDigitC
      let frac := match (c :: rest).dropWhile isDigitC with
        | '.' :: r2 => r2.takeWhile isDigitC
        | _ => []
      some (parseDecimal ds frac)
    else extractNumeric rest

structure Finding where
  testName : String
  value : String
  status : String
deriving DecidableEq, Repr

structure AbnormalValue where
  testName : String
  value : String
  severity : String
deriving DecidableEq, Repr

/-- check_finding: skip findings marked normal, extract the numeric value,
check against the panic table. -/
def checkFinding (f : Finding) : Option EmergencyAlert :=
  let name := String.mk (lowerStr (pyStrip f.testName.data))
  if f.status = "normal" then none
  else
    match extractNumeric f.value.data with
    | none => none
    | some v => checkAgainstPanic name v

/-- check_abnormal_value: same, without the status gate. -/
def checkAbnormalValue (av : AbnormalValue) : Option EmergencyAlert :=
  let name := String.mk (lowerStr (pyStrip av.testName.data))
  match extractNumeric av.value.data with
  | none => none
  | some v => checkAgainstPanic name v

/-- The compiled raw-text pattern: a word-bounded alternation of every
panic-table key (group 1), separators, a number, trailing whitespace;
IGNORECASE. -/
def panicScanRE : RE :=
  rseq [.grp (rseq [.wordB, ralts (panicValues.map (fun kv => rchars kv.1)), .wordB]),
        rstar (.cls false [.space, .ch ':', .ch '.', .ch '-']),
        .rep 1 none false cDig, ropt (.lit '.'), rstar cDig,
        cSpaceStar]

/-- scan_text_for_panic_values: run the alternation over the raw text; the
numeric token standing where group 2 of the source pattern matches is
recovered by numeric extraction from the slice between the end of group 1
and the end of the match (the separator class contains no digits, so this
recovers exactly the group-2 value). -/
def scanTextForPanicValues (t : Str) : List EmergencyAlert :=
  (finditer true t panicScanRE).foldl
    (fun acc m =>
      match m.2 with
      | none => acc
      | some g1 =>
        let testName := String.mk (lowerStr (pyStrip (pySlice t g1.1 g1.2)))
        match extractNumeric (pySlice t g1.2 m.1.2) with
        | none => acc
        | some v =>
          match checkAgainstPanic testName v with
          | some a => acc ++ [a]
          | none => acc)
    []

/-- is_duplicate: same test name, case-insensitively. -/
def isDuplicateAlert (a : EmergencyAlert) (existing : List EmergencyAlert) : Bool :=
  existing.any (fun b => decide (lowerStr b.testName.data = lowerStr a.testName.data))

def severityRank (a : EmergencyAlert) : Nat :=
  if a.severity = "critical" then 0 else 1

structure EmergencyResult where
  hasEmergency : Bool
  alertCount : Option Nat
  alerts : List EmergencyAlert
deriving DecidableEq, Repr

/-- Method 1 of detect_critical_values: alerts from structured key
findings, appended without any duplicate check. -/
def findingsPathAlerts (keyFindings : List Finding) : List EmergencyAlert :=
  keyFindings.foldl
    (fun acc f => match checkFinding f with
      | some a => acc ++ [a]
      | none => acc) []

/-- The alert list accumulated by the three paths of detect_critical_values
before sorting: findings (no dedup), abnormal values (dedup against the
accumulated list), raw-text scan (dedup against the accumulated list). -/
def collectAlerts (extractedText : Str) (keyFindings : List Finding)
    (abnormalValues : List AbnormalValue) : List EmergencyAlert :=
  let a2 := abnormalValues.foldl
    (fun acc av => match checkAbnormalValue av with
      | some a => if isDuplicateAlert a acc then acc else acc ++ [a]
      | none => acc) (findingsPathAlerts keyFindings)
  (scanTextForPanicValues extractedText).foldl
    (fun acc a => if isDuplicateAlert a acc then acc else acc ++ [a]) a2

/-- detect_critical_values: collect from the three paths, then either the
minimal no-emergency result or the severity-sorted alert list. -/
def detectCriticalValues (extractedText : Str) (keyFindings : Option (List Finding))
    (abnormalValues : Option (List AbnormalValue)) : EmergencyResult :=
  let alerts := collectAlerts extractedText (keyFindings.getD []) (abnormalValues.getD [])
  if alerts.isEmpty then
    { hasEmergency := false, alertCount := none, alerts := [] }
  else
    let sorted := sortBy (fun a b => decide (severityRank a ≤ severityRank b)) alerts
    { hasEmergency := true, alertCount := some sorted.length, alerts := sorted }

/-
━━ Theorems ━━
General-purpose lemmas first (association lists, the stable insertion sort),
then one theorem per claim together with its witness or counterexample.
-/

set_option maxRecDepth 10000

theorem alGet_mem {κ β : Type} [DecidableEq κ] {key : κ} {v : β} :
    ∀ {l : List (κ × β)}, alGet key l = some v → (key, v) ∈ l := by
  intro l
  induction l with
  | nil => intro h; simp [alGet] at h
  | cons kv rest ih =>
    intro h
    rw [alGet] at h
    by_cases hk : kv.1 = key
    · simp only [hk, if_pos rfl] at h
      cases h
      have he : (key, kv.2) = kv := by rw [← hk]
      rw [he]
      exact List.mem_cons_self _ _
    · rw [if_neg hk] at h
      exact List.mem_cons_of_mem _ (ih h)

theorem alGet_alSet_self {κ β : Type} [DecidableEq κ] (key : κ) (val : β) :
    ∀ l : List (κ × β), alGet key (alSet key val l) = some val := by
  intro l
  induction l with
  | nil => simp [alSet, alGet]
  | cons kv rest ih =>
    rw [alSet]
    by_cases hk : kv.1 = key
    · rw [if_pos hk, alGet, if_pos hk]
    · rw [if_neg hk, alGet, if_neg hk]
      exact ih

theorem alGet_alSet_ne {κ β : Type} [DecidableEq κ] {key key2 : κ} (val : β)
    (hne : key2 ≠ key) :
    ∀ l : List (κ × β), alGet key (alSet key2 val l) = alGet key l := by
  intro l
  induction l with
  | nil => simp [alSet, alGet, hne]
  | cons kv rest ih =>
    rw [alSet]
    by_cases hk : kv.1 = key2
    · rw [if_pos hk, alGet, alGet]
      have : kv.1 ≠ key := by rw [hk]; exact hne
      rw [if_neg this, if_neg this]
    · rw [if_neg hk, alGet, alGet]
      by_cases h2 : kv.1 = key
      · rw [if_pos h2, if_pos h2]
      · rw [if_neg h2, if_neg h2]
        exact ih

theorem insBy_perm {α : Type} (le : α → α → Bool) (x : α) :
    ∀ l : List α, (insBy le x l).Perm (x :: l) := by
  intro l
  induction l with
  | nil => simp [insBy]
  | cons y ys ih =>
    rw [insBy]
    by_cases h : le x y = true
    · rw [if_pos h]
    · rw [if_neg h]
      exact (List.Perm.cons y ih).trans (List.Perm.swap x y ys)

theorem sortBy_perm {α : Type} (le : α → α → Bool) :
    ∀ l : List α, (sortBy le l).Perm l := by
  intro l
  induction l with
  | nil => simp [sortBy]
  | cons x xs ih =>
    rw [sortBy]
    exact (insBy_perm le x (sortBy le xs)).trans (List.Perm.cons x ih)

theorem sortBy_mem {α : Type} (le : α → α → Bool) (l : List α) (x : α) :
    x ∈ sortBy le l ↔ x ∈ l :=
  (sortBy_perm le l).mem_iff

theorem insBy_mem {α : Type} (le : α → α → Bool) (x : α) (l : List α) (y : α) :
    y ∈ insBy le x l ↔ y = x ∨ y ∈ l := by
  rw [(insBy_perm le x l).mem_iff, List.mem_cons]

/-- Sortedness of the stable insertion sort, given totality and transitivity
of the boolean comparison. -/
theorem insBy_sorted {α : Type} {le : α → α → Bool}
    (htot : ∀ a b, le a b = true ∨ le b a = true)
    (htrans : ∀ a b c, le a b = true → le b c = true → le a c = true)
    (x : α) :
    ∀ l : List α, l.Pairwise (fun a b => le a b = true) →
      (insBy le x l).Pairwise (fun a b => le a b = true) := by
  intro l
  induction l with
  | nil => intro _; simp [insBy]
  | cons y ys ih =>
    intro hp
    rw [insBy]
    rcases List.pairwise_cons.mp hp with ⟨hy, hys⟩
    by_cases h : le x y = true
    · rw [if_pos h]
      refine List.pairwise_cons.mpr ⟨?_, hp⟩
      intro z hz
      rcases List.mem_cons.mp hz with hz | hz
      · rw [hz]; exact h
      · exact htrans x y z h (hy z hz)
    · rw [if_neg h]
      refine List.pairwise_cons.mpr ⟨?_, ih hys⟩
      intro z hz
      rcases (insBy_mem le x ys z).mp hz with hz | hz
      · rw [hz]
        rcases htot x y with h2 | h2
        · exact absurd h2 h
        · exact h2
      · exact hy z hz

theorem sortBy_sorted {α : Type} {le : α → α → Bool}
    (htot : ∀ a b, le a b = true ∨ le b a = true)
    (htrans : ∀ a b c, le a b = true → le b c = true → le a c = true) :
    ∀ l : List α, (sortBy le l).Pairwise (fun a b => le a b = true) := by
  intro l
  induction l with
  | nil => simp [sortBy]
  | cons x xs ih =>
    rw [sortBy]
    exact insBy_sorted htot htrans x (sortBy le xs) ih

theorem luhn_short {s : Str} (h : (s.filter isDigitC).length < 2) :
    luhnChecksum s = false := by
  have h2 : ((s.filter isDigitC).map charVal).length < 2 := by simpa using h
  rw [luhnChecksum]
  simp only [h2, if_pos]

theorem verhoeff_short {s : Str} (h : (s.filter isDigitC).length < 2) :
    verhoeffChecksum s = false := by
  have h2 : ((s.reverse.filter isDigitC).map charVal).length < 2 := by
    rw [List.filter_reverse]
    simpa using h
  rw [verhoeffChecksum]
  simp only [h2, if_pos]

theorem verhoeff_starts01 {s : Str} (hall : s.all isDigitC = true) (hlen : s.length = 12)
    (hhead : s.headD ' ' = '0' ∨ s.headD ' ' = '1') :
    validateEntity (some .verhoeff) s = false := by
  have hf : s.filter isDigitC = s :=
    List.filter_eq_self.mpr (fun a ha => List.all_eq_true.mp hall a ha)
  have hb : (s.headD ' ' == '0' || s.headD ' ' == '1') = true := by
    rcases hhead with h | h <;> rw [h] <;> rfl
  simp only [validateEntity, hf, hlen]
  rw [if_neg (by simp), if_pos hb]

/-- C9: the Luhn and Verhoeff validators are total functions returning false
on inputs with fewer than two digits; 4111111111111111 passes Luhn while
1234567890123456 fails it; and every 12-digit string beginning with 0 or 1
fails the Aadhaar (Verhoeff) validator regardless of its check digit. -/
theorem C9_checksum_validators :
    (∀ s : Str, (s.filter isDigitC).length < 2 →
      luhnChecksum s = false ∧ verhoeffChecksum s = false) ∧
    luhnChecksum "4111111111111111".data = true ∧
    luhnChecksum "1234567890123456".data = false ∧
    (∀ s : Str, s.all isDigitC = true → s.length = 12 →
      (s.headD ' ' = '0' ∨ s.headD ' ' = '1') →
      validateEntity (some .verhoeff) s = false) :=
  ⟨fun _ h => ⟨luhn_short h, verhoeff_short h⟩, by decide, by decide,
   fun _ hall hlen hhead => verhoeff_starts01 hall hlen hhead⟩

/-- Witness for C9 at concrete inputs. -/
theorem C9_checksum_validators_witness :
    luhnChecksum "ab".data = false ∧ verhoeffChecksum "ab".data = false ∧
    validateEntity (some .verhoeff) "012345678901".data = false :=
  ⟨(C9_checksum_validators.1 "ab".data (by decide)).1,
   (C9_checksum_validators.1 "ab".data (by decide)).2,
   C9_checksum_validators.2.2.2 "012345678901".data (by decide) (by decide) (by decide)⟩

/-- C5: from_dict substitutes empty defaults for missing keys (it uses
d.get with a default) instead of failing fast: reconstructing from an empty
dict silently yields the empty mapping, and a dict missing only the forward
map yields a mapping with no placeholders at all. -/
theorem C5_fromDict_missing_keys_defaults :
    PIIMapping.fromDict { p2o := none, counts := none } = PIIMapping.empty ∧
    PIIMapping.fromDict { p2o := none, counts := some [("NAME", 2)] } =
      { p2o := [], o2p := [], counts := [("NAME", 2)] } :=
  ⟨rfl, rfl⟩

theorem add_lookup_self (m : PIIMapping) (t : String) (v : Str) :
    alGet v (m.add t v).2.o2p = some (m.add t v).1 := by
  cases h : alGet v m.o2p with
  | some p => simp only [PIIMapping.add, h]
  | none =>
    simp only [PIIMapping.add, h]
    exact alGet_alSet_self v _ m.o2p

theorem add_lookup_preserve (m : PIIMapping) (t : String) (w : Str) {v p : Str}
    (h : alGet v m.o2p = some p) : alGet v (m.add t w).2.o2p = some p := by
  cases hw : alGet w m.o2p with
  | some q => simp only [PIIMapping.add, hw]; exact h
  | none =>
    simp only [PIIMapping.add, hw]
    have hne : w ≠ v := by
      intro he
      rw [he, h] at hw
      cases hw
    rw [alGet_alSet_ne _ hne m.o2p]
    exact h

theorem foldAdd_lookup_preserve (ops : List (String × Str)) :
    ∀ (m : PIIMapping) {v p : Str}, alGet v m.o2p = some p →
      alGet v (ops.foldl (fun mm op => (mm.add op.1 op.2).2) m).o2p = some p := by
  induction ops with
  | nil => intro m v p h; exact h
  | cons op rest ih =>
    intro m v p h
    exact ih _ (add_lookup_preserve m op.1 op.2 h)

theorem add_ret_of_lookup {m : PIIMapping} (t : String) {v p : Str}
    (h : alGet v m.o2p = some p) : m.add t v = (p, m) := by
  simp only [PIIMapping.add, h]

/-- C10: once add has returned placeholder p for original value v, every
later add with the same value (under any entity type, after any
intervening sequence of add operations) returns the same p and leaves the
mapping unchanged. -/
theorem C10_add_idempotent (m : PIIMapping) (t1 t2 : String) (v : Str)
    (ops : List (String × Str)) :
    ((ops.foldl (fun mm op => (mm.add op.1 op.2).2) (m.add t1 v).2).add t2 v).1 =
      (m.add t1 v).1 ∧
    ((ops.foldl (fun mm op => (mm.add op.1 op.2).2) (m.add t1 v).2).add t2 v).2 =
      ops.foldl (fun mm op => (mm.add op.1 op.2).2) (m.add t1 v).2 := by
  have h1 := add_lookup_self m t1 v
  have h2 := foldAdd_lookup_preserve ops (m.add t1 v).2 h1
  have h3 := add_ret_of_lookup (m := (ops.foldl (fun mm op => (mm.add op.1 op.2).2)
    (m.add t1 v).2)) t2 h2
  rw [h3]
  exact ⟨rfl, rfl⟩

def ruleLowLtHigh (r : PanicRule) : Bool :=
  match r.lowCritical, r.highCritical with
  | some l, some h => decide (l < h)
  | _, _ => true

theorem panic_low_lt_high : panicValues.all (fun p => ruleLowLtHigh p.2) = true := by decide

theorem panic_low_lt_high_mem {name : String} {rule : PanicRule}
    (hmem : (name, rule) ∈ panicValues) {l h : ℚ}
    (hl : rule.lowCritical = some l) (hh : rule.highCritical = some h) : l < h := by
  have := List.all_eq_true.mp panic_low_lt_high _ hmem
  rw [ruleLowLtHigh] at this
  rw [hl, hh] at this
  exact of_decide_eq_true this

theorem checkAgainstPanic_severity (name : String) (v : ℚ) (a : EmergencyAlert)
    (h : checkAgainstPanic name v = some a) : a.severity = "critical" := by
  simp only [checkAgainstPanic] at h
  repeat' split at h
  all_goals (cases h <;> rfl)

/-- C6: for every test name carried in the panic table, a value at or below
the configured low-critical threshold yields a critically low alert, a
value at or above the configured high-critical threshold yields a
critically high alert, every alert produced by the threshold check has
severity critical, and a glucose value of exactly 50 triggers while 51
does not. -/
theorem C6_panic_thresholds :
    (∀ (name : String) (rule : PanicRule), alGet name panicValues = some rule → ∀ v : ℚ,
      (∀ low, rule.lowCritical = some low → v ≤ low →
        ∃ a, checkAgainstPanic name v = some a ∧
          a.direction = "critically_low" ∧ a.severity = "critical") ∧
      (∀ high, rule.highCritical = some high → high ≤ v →
        ∃ a, checkAgainstPanic name v = some a ∧
          a.direction = "critically_high" ∧ a.severity = "critical")) ∧
    (∀ (name : String) (v : ℚ) (a : EmergencyAlert),
      checkAgainstPanic name v = some a → a.severity = "critical") ∧
    (checkAgainstPanic "glucose" 50).isSome = true ∧
    checkAgainstPanic "glucose" 51 = none := by
  refine ⟨?_, checkAgainstPanic_severity, by decide, by decide⟩
  intro name rule hget v
  constructor
  · intro low hlow hv
    simp only [checkAgainstPanic, hget, hlow]
    rw [if_pos hv]
    exact ⟨_, rfl, rfl, rfl⟩
  · intro high hhigh hv
    rcases hl : rule.lowCritical with _ | low
    · simp only [checkAgainstPanic, hget, hl, hhigh]
      rw [if_pos hv]
      exact ⟨_, rfl, rfl, rfl⟩
    · have hlh : low < high := panic_low_lt_high_mem (alGet_mem hget) hl hhigh
      have hnv : ¬(v ≤ low) := by linarith
      simp only [checkAgainstPanic, hget, hl, hhigh]
      rw [if_neg hnv, if_pos hv]
      exact ⟨_, rfl, rfl, rfl⟩

/-- Witness for C6: the low branch applied at glucose 45, the high branch at
glucose 510. -/
theorem C6_panic_thresholds_witness :
    (∃ a, checkAgainstPanic "glucose" 45 = some a ∧
      a.direction = "critically_low" ∧ a.severity = "critical") ∧
    (∃ a, checkAgainstPanic "glucose" 510 = some a ∧
      a.direction = "critically_high" ∧ a.severity = "critical") :=
  ⟨(C6_panic_thresholds.1 "glucose" _ rfl 45).1 50 rfl (by decide),
   (C6_panic_thresholds.1 "glucose" _ rfl 510).2 500 rfl (by decide)⟩

/-- Two half-open spans intersect. -/
def spansIntersect (a b : Span) : Prop := max a.1 b.1 < min a.2 b.2

instance (a b : Span) : Decidable (spansIntersect a b) :=
  inferInstanceAs (Decidable (_ < _))

/-- The relation guaranteed between an earlier-accepted and a later-accepted
entity of the regex detector: the later span neither starts nor ends
strictly inside the earlier one (the two disjuncts of the seen-spans
test). -/
def noReclaim (e1 e2 : PIIEntity) : Prop :=
  ¬(e1.start ≤ e2.start ∧ e2.start < e1.stop) ∧
  ¬(e1.start < e2.stop ∧ e2.stop ≤ e1.stop)

theorem noReclaim_intersect {e1 e2 : PIIEntity} (h : noReclaim e1 e2)
    (hi : spansIntersect (e1.start, e1.stop) (e2.start, e2.stop)) :
    e2.start < e1.start ∧ e1.stop < e2.stop := by
  rcases h with ⟨h1, h2⟩
  rw [spansIntersect] at hi
  simp only [max_lt_iff, lt_min_iff] at hi
  constructor
  · by_contra h3
    exact h1 ⟨by omega, by omega⟩
  · by_contra h3
    exact h2 ⟨by omega, by omega⟩

theorem foldl_preserve {α β : Type} {P : α → Prop} {f : α → β → α}
    (hstep : ∀ a b, P a → P (f a b)) :
    ∀ (l : List β) (a : α), P a → P (l.foldl f a) := by
  intro l
  induction l with
  | nil => intro a h; exact h
  | cons b rest ih => intro a h; exact ih _ (hstep a b h)

/-- The invariant of the detection fold: the seen-span list is exactly the
span list of the accepted entities, and accepted entities pairwise satisfy
noReclaim. -/
def detInv (st : List PIIEntity × List Span) : Prop :=
  st.2 = st.1.map (fun e => (e.start, e.stop)) ∧ st.1.Pairwise noReclaim

theorem seenOverlap_false {seen : List Span} {sp : Span}
    (h : seenOverlap seen sp = false) :
    ∀ s ∈ seen, ¬(s.1 ≤ sp.1 ∧ sp.1 < s.2) ∧ ¬(s.1 < sp.2 ∧ sp.2 ≤ s.2) := by
  intro s hs
  rw [seenOverlap] at h
  have := List.any_eq_false.mp h s hs
  simp only [Bool.or_eq_true, Bool.and_eq_true, decide_eq_true_iff] at this
  push_neg at this
  constructor
  · intro ⟨h1, h2⟩; have := this.1 h1; omega
  · intro ⟨h1, h2⟩; have := this.2 h1; omega

theorem regexDetectPattern_inv (t : Str) (pd : PatternDef)
    (st : List PIIEntity × List Span) (h : detInv st) :
    detInv (regexDetectPattern t pd st) := by
  rw [regexDetectPattern]
  refine foldl_preserve ?_ _ st h
  intro acc m hinv
  rcases hinv with ⟨hmap, hpw⟩
  dsimp only
  split
  · exact ⟨hmap, hpw⟩
  · split
    · exact ⟨hmap, hpw⟩
    · split
      · exact ⟨hmap, hpw⟩
      · rename_i hov _ _
        constructor
        · simp [hmap]
        · rw [List.pairwise_append]
          refine ⟨hpw, List.pairwise_singleton _ _, ?_⟩
          intro e1 he1 e2 he2
          rcases List.mem_singleton.mp he2 with rfl
          have hone := seenOverlap_false (Bool.of_not_eq_true hov) _
            (by rw [hmap]; exact List.mem_map_of_mem _ he1)
          exact ⟨hone.1, hone.2⟩

/-- C3 amended: the regex detector never lets a later pattern claim a span
whose start or end offset lies strictly inside an earlier accepted span; in
particular two returned entities can intersect only when the later one
strictly contains the earlier one. -/
theorem C3_regex_detector_no_partial_overlap (t : Str) :
    (regexDetect t).Pairwise (fun e1 e2 =>
      noReclaim e1 e2 ∧
      (spansIntersect (e1.start, e1.stop) (e2.start, e2.stop) →
        e2.start < e1.start ∧ e1.stop < e2.stop)) := by
  have hinv : detInv (rePatterns.foldl (fun acc pd => regexDetectPattern t pd acc) ([], [])) := by
    refine foldl_preserve ?_ _ _ ?_
    · intro acc pd h; exact regexDetectPattern_inv t pd acc h
    · exact ⟨rfl, List.Pairwise.nil⟩
  have hpw := hinv.2
  rw [regexDetect]
  exact hpw.imp (fun h => ⟨h, fun hi => noReclaim_intersect h hi⟩)

/-- Counterexample to C3 as stated: on this input the voter-id pattern
accepts span [2,12) and the later email pattern accepts span [0,22), which
strictly contains it — the output does contain two intersecting spans. -/
theorem C3_counterexample :
    (regexDetect "x.ABC1234567@gmail.com".data).map (fun e => (e.entityType, e.start, e.stop)) =
      [("VOTER_ID", 2, 12), ("EMAIL", 0, 22)] ∧
    spansIntersect (2, 12) (0, 22) := by
  constructor
  · rfl
  · decide

/-- The overlap relation actually tested by the merge loop between an
occupied span s and a candidate span x. -/
def spanTouches (s x : Span) : Prop :=
  (s.1 ≤ x.1 ∧ x.1 < s.2) ∨ (s.1 < x.2 ∧ x.2 ≤ s.2) ∨ (x.1 ≤ s.1 ∧ s.1 < x.2)

instance (s x : Span) : Decidable (spanTouches s x) :=
  inferInstanceAs (Decidable (_ ∨ _ ∨ _))

theorem intersect_touches {s x : Span} (h : spansIntersect s x) : spanTouches s x := by
  rw [spansIntersect] at h
  simp only [max_lt_iff, lt_min_iff] at h
  rw [spanTouches]
  omega

theorem mergeOverlap_iff (occ : List Span) (e : PIIEntity) :
    mergeOverlap occ e = true ↔ ∃ s ∈ occ, spanTouches s (e.start, e.stop) := by
  simp [mergeOverlap, List.any_eq_true, spanTouches, or_assoc]

theorem mergeKeyLE_iff (a b : PIIEntity) :
    mergeKeyLE a b = true ↔
      b.score < a.score ∨ (a.score = b.score ∧ srcPriority a.source ≤ srcPriority b.source) := by
  simp [mergeKeyLE]

theorem mergeKeyLE_total (a b : PIIEntity) :
    mergeKeyLE a b = true ∨ mergeKeyLE b a = true := by
  rw [mergeKeyLE_iff, mergeKeyLE_iff]
  rcases lt_trichotomy a.score b.score with h | h | h
  · right; left; exact h
  · rcases le_total (srcPriority a.source) (srcPriority b.source) with h2 | h2
    · left; right; exact ⟨h, h2⟩
    · right; right; exact ⟨h.symm, h2⟩
  · left; left; exact h

theorem mergeKeyLE_trans (a b c : PIIEntity)
    (h1 : mergeKeyLE a b = true) (h2 : mergeKeyLE b c = true) : mergeKeyLE a c = true := by
  rw [mergeKeyLE_iff] at h1 h2 ⊢
  rcases h1 with h1 | ⟨h1, h1p⟩ <;> rcases h2 with h2 | ⟨h2, h2p⟩
  · left; exact h2.trans h1
  · left; rw [← h2]; exact h1
  · left; rw [h1]; exact h2
  · right; exact ⟨h1.trans h2, h1p.trans h2p⟩

/-- Invariant of the merge fold: occupied spans are exactly the accepted
spans, and accepted entities pairwise do not touch. -/
def mergeInv (st : List PIIEntity × List Span) : Prop :=
  st.2 = st.1.map (fun e => (e.start, e.stop)) ∧
  st.1.Pairwise (fun a b => ¬ spanTouches (a.start, a.stop) (b.start, b.stop))

theorem mergeStep_inv {st : List PIIEntity × List Span} (e : PIIEntity)
    (h : mergeInv st) : mergeInv (mergeStep st e) := by
  rcases h with ⟨hmap, hpw⟩
  rw [mergeStep]
  split
  · exact ⟨hmap, hpw⟩
  · rename_i hov
    constructor
    · simp [hmap]
    · rw [List.pairwise_append]
      refine ⟨hpw, List.pairwise_singleton _ _, ?_⟩
      intro e1 he1 e2 he2
      rcases List.mem_singleton.mp he2 with rfl
      intro ht
      exact hov ((mergeOverlap_iff st.2 e2).mpr
        ⟨(e1.start, e1.stop), by rw [hmap]; exact List.mem_map_of_mem _ he1, ht⟩)

theorem mergeFold_mem_mono (rest : List PIIEntity) (acc : List PIIEntity × List Span)
    {x : PIIEntity} (hx : x ∈ acc.1) : x ∈ (rest.foldl mergeStep acc).1 := by
  refine foldl_preserve (P := fun st => x ∈ st.1) ?_ rest acc hx
  intro a b hmem
  rw [mergeStep]
  split
  · exact hmem
  · exact List.mem_append_left _ hmem

theorem mergeFold_dominates (rest : List PIIEntity) :
    ∀ (acc : List PIIEntity × List Span),
      acc.2 = acc.1.map (fun x => (x.start, x.stop)) →
      (∀ e1 ∈ acc.1, ∀ e2 ∈ rest, mergeKeyLE e1 e2 = true) →
      rest.Pairwise (fun a b => mergeKeyLE a b = true) →
      ∀ e ∈ rest, e ∉ (rest.foldl mergeStep acc).1 →
        ∃ e', e' ∈ (rest.foldl mergeStep acc).1 ∧
          spanTouches (e'.start, e'.stop) (e.start, e.stop) ∧ mergeKeyLE e' e = true := by
  induction rest with
  | nil => intro acc _ _ _ e he; cases he
  | cons x rest2 ih =>
    intro acc hmap hdom hsorted e he hnot
    rw [List.foldl_cons] at hnot ⊢
    rcases List.pairwise_cons.mp hsorted with ⟨hhead, htail⟩
    by_cases hov : mergeOverlap acc.2 x = true
    · have hstep : mergeStep acc x = acc := by rw [mergeStep, if_pos hov]
      rw [hstep] at hnot ⊢
      rcases List.mem_cons.mp he with rfl | he2
      · rcases (mergeOverlap_iff acc.2 e).mp hov with ⟨s, hs, ht⟩
        rw [hmap] at hs
        rcases List.mem_map.mp hs with ⟨e', he', hse⟩
        refine ⟨e', mergeFold_mem_mono rest2 acc he', ?_, ?_⟩
        · rw [hse]; exact ht
        · exact hdom e' he' e (List.mem_cons_self _ _)
      · exact ih acc hmap
          (fun e1 h1 e2 h2 => hdom e1 h1 e2 (List.mem_cons_of_mem _ h2)) htail e he2 hnot
    · have hstep : mergeStep acc x = (acc.1 ++ [x], acc.2 ++ [(x.start, x.stop)]) := by
        rw [mergeStep, if_neg hov]
      rw [hstep] at hnot ⊢
      rcases List.mem_cons.mp he with rfl | he2
      · exact absurd (mergeFold_mem_mono rest2 _
          (List.mem_append_right _ (List.mem_singleton_self e))) hnot
      · refine ih _ (by simp [hmap]) ?_ htail e he2 hnot
        intro e1 h1 e2 h2
        rcases List.mem_append.mp h1 with h1 | h1
        · exact hdom e1 h1 e2 (List.mem_cons_of_mem _ h2)
        · rcases List.mem_singleton.mp h1 with rfl
          exact hhead e2 h2

def ceA : PIIEntity :=
  { entityType := "PHONE", text := [], start := 0, stop := 10,
    score := mkRat 9 10, source := "regex" }
def ceB : PIIEntity :=
  { entityType := "PHONE", text := [], start := 8, stop := 12,
    score := mkRat 85 100, source := "regex" }
def ceC : PIIEntity :=
  { entityType := "PHONE", text := [], start := 11, stop := 14,
    score := mkRat 8 10, source := "regex" }

/-- Counterexample to C2 as stated: among the overlapping candidates B
(span [8,12), confidence 0.85) and C (span [11,14), confidence 0.80), the
lower-confidence C is the one accepted, because B is knocked out earlier by
A (span [0,10), confidence 0.90) while C survives. -/
theorem C2_counterexample :
    mergeEntities [ceA, ceB, ceC] [] = [ceA, ceC] ∧
    spansIntersect (ceB.start, ceB.stop) (ceC.start, ceC.stop) ∧
    ceC.score < ceB.score ∧
    ceB ∉ mergeEntities [ceA, ceB, ceC] [] ∧
    ceC ∈ mergeEntities [ceA, ceB, ceC] [] := by decide

/-- C2 amended: the merge output has no two intersecting spans, and every
candidate not accepted overlaps (in the sense of the merge test) an
accepted entity of higher priority: strictly higher confidence, or equal
confidence with source priority at least as preferred (regex before
comprehend). -/
theorem C2_merge_entities (primary secondary : List PIIEntity) :
    (mergeEntities primary secondary).Pairwise (fun e1 e2 =>
      ¬ spansIntersect (e1.start, e1.stop) (e2.start, e2.stop)) ∧
    ∀ e ∈ primary ++ secondary, e ∉ mergeEntities primary secondary →
      ∃ e', e' ∈ mergeEntities primary secondary ∧
        spanTouches (e'.start, e'.stop) (e.start, e.stop) ∧
        (e.score < e'.score ∨ (e'.score = e.score ∧
          srcPriority e'.source ≤ srcPriority e.source)) := by
  constructor
  · have hinv : mergeInv ((sortBy mergeKeyLE (primary ++ secondary)).foldl mergeStep ([], [])) :=
      foldl_preserve (fun a b h => mergeStep_inv b h) _ _ ⟨rfl, List.Pairwise.nil⟩
    exact hinv.2.imp (fun hnt hi => hnt (intersect_touches hi))
  · intro e he hnot
    have hes : e ∈ sortBy mergeKeyLE (primary ++ secondary) :=
      (sortBy_mem _ _ e).mpr he
    have hsorted := sortBy_sorted mergeKeyLE_total mergeKeyLE_trans (primary ++ secondary)
    rcases mergeFold_dominates (sortBy mergeKeyLE (primary ++ secondary)) ([], [])
        rfl (by intro e1 h1; cases h1) hsorted e hes hnot with ⟨e', h1, h2, h3⟩
    exact ⟨e', h1, h2, (mergeKeyLE_iff e' e).mp h3⟩

/-- Witness for C2 at the counterexample input: the rejected candidate B is
dominated by an accepted higher-priority overlapping entity. -/
theorem C2_merge_entities_witness :
    ∃ e', e' ∈ mergeEntities [ceA, ceB, ceC] [] ∧
      spanTouches (e'.start, e'.stop) (ceB.start, ceB.stop) ∧
      (ceB.score < e'.score ∨ (e'.score = ceB.score ∧
        srcPriority e'.source ≤ srcPriority ceB.source)) :=
  (C2_merge_entities [ceA, ceB, ceC] []).2 ceB (by decide) (by decide)

theorem recordAudit_length_enabled (ext : AuditExt) {st : AnonState}
    (hen : st.auditEnabled = true) (hlen : st.auditLog.length < 10000)
    (textLength detected redacted : Nat) (types sources : List String)
    (strategy : RedactStrategy) :
    (recordAudit ext st textLength detected redacted types sources strategy).auditLog.length =
      st.auditLog.length + 1 := by
  rw [recordAudit, hen]
  simp only [Bool.not_true, Bool.false_eq_true, if_false]
  rw [if_neg (by omega)]
  simp

theorem recordAudit_disabled (ext : AuditExt) {st : AnonState}
    (hdis : st.auditEnabled = false)
    (textLength detected redacted : Nat) (types sources : List String)
    (strategy : RedactStrategy) :
    recordAudit ext st textLength detected redacted types sources strategy = st := by
  rw [recordAudit, hdis]
  simp

def auditExt0 : AuditExt :=
  { eventId := [], timestamp := 0, durationMs := 0, hashHex := fun _ => [] }
def anonStateOn : AnonState :=
  { strategy := .placeholder, auditEnabled := true, auditLog := [] }
def anonStateOff : AnonState :=
  { strategy := .placeholder, auditEnabled := false, auditLog := [] }

/-- Counterexample to C4 as stated: with audit enabled, anonymise on the
empty text and on whitespace-only text returns through the early
empty-input path and appends no audit entry at all. -/
theorem C4_counterexample :
    anonStateOn.auditEnabled = true ∧
    (anonymise auditExt0 anonStateOn "".data).2.auditLog.length = 0 ∧
    (anonymise auditExt0 anonStateOn "   ".data).2.auditLog.length = 0 :=
  ⟨rfl, rfl, rfl⟩

/-- C4 amended: for every input containing a non-whitespace character, a
call to anonymise with audit enabled appends exactly one entry (below the
capacity cap), even when zero entities are detected; with audit disabled
the log is never touched; but the early return for empty or
whitespace-only input skips the audit entirely. -/
theorem C4_audit_per_call (ext : AuditExt) (st : AnonState) (t : Str)
    (c : Option (List PIIEntity)) (mc : ℚ) (so : Option RedactStrategy) :
    (st.auditEnabled = true → (t.isEmpty || (pyStrip t).isEmpty) = false →
      st.auditLog.length < 10000 →
      (anonymise ext st t c mc so).2.auditLog.length = st.auditLog.length + 1) ∧
    (st.auditEnabled = false →
      (anonymise ext st t c mc so).2.auditLog = st.auditLog) := by
  constructor
  · intro hen hne hlen
    rw [anonymise]
    rw [if_neg (by rw [hne]; exact Bool.false_ne_true)]
    dsimp only
    split
    · exact recordAudit_length_enabled ext hen hlen _ _ _ _ _ _
    · exact recordAudit_length_enabled ext hen hlen _ _ _ _ _ _
  · intro hdis
    rw [anonymise]
    split
    · rfl
    · dsimp only
      split
      · rw [recordAudit_disabled ext hdis]
      · rw [recordAudit_disabled ext hdis]

/-- Witness for C4: one entry appended on a plain non-empty text with audit
enabled; log untouched with audit disabled. -/
theorem C4_audit_per_call_witness :
    (anonymise auditExt0 anonStateOn "hello".data none (mkRat 55 100) none).2.auditLog.length = 1 ∧
    (anonymise auditExt0 anonStateOff "hello".data none (mkRat 55 100) none).2.auditLog = [] :=
  ⟨(C4_audit_per_call auditExt0 anonStateOn "hello".data none (mkRat 55 100) none).1
      rfl (by decide) (by decide),
   (C4_audit_per_call auditExt0 anonStateOff "hello".data none (mkRat 55 100) none).2 rfl⟩

/-- Two alerts carry different test names, case-insensitively. -/
def distinctNames (a b : EmergencyAlert) : Prop :=
  lowerStr a.testName.data ≠ lowerStr b.testName.data

instance (a b : EmergencyAlert) : Decidable (distinctNames a b) :=
  inferInstanceAs (Decidable ¬(_ = _))

theorem distinctNames_symm : Symmetric distinctNames :=
  fun _ _ h => Ne.symm h

theorem appendIfNew_pairwise (a : EmergencyAlert) {acc : List EmergencyAlert}
    (h : acc.Pairwise distinctNames) :
    (if isDuplicateAlert a acc then acc else acc ++ [a]).Pairwise distinctNames := by
  split
  · exact h
  · rename_i hdup
    rw [List.pairwise_append]
    refine ⟨h, List.pairwise_singleton _ _, ?_⟩
    intro b hb a2 ha2
    rcases List.mem_singleton.mp ha2 with rfl
    have := List.any_eq_false.mp (Bool.of_not_eq_true hdup) b hb
    simpa [distinctNames] using this

theorem collectAlerts_pairwise (t : Str) (kf : List Finding) (av : List AbnormalValue)
    (h : (findingsPathAlerts kf).Pairwise distinctNames) :
    (collectAlerts t kf av).Pairwise distinctNames := by
  rw [collectAlerts]
  refine foldl_preserve ?_ _ _ (foldl_preserve ?_ _ _ h)
  · intro acc a hp
    exact appendIfNew_pairwise a hp
  · intro acc x hp
    dsimp only
    split
    · exact appendIfNew_pairwise _ hp
    · exact hp

def cfGlucose : Finding := { testName := "Glucose", value := "45 mg/dL", status := "critical" }
def cfGlucoseDup : Finding := { testName := "Glucose", value := "45", status := "high" }

/-- Counterexample to C7 as stated: two structured findings for the same
test produce two alerts with the same test name, because the findings path
performs no deduplication of its own. -/
theorem C7_counterexample :
    (detectCriticalValues [] (some [cfGlucoseDup, cfGlucoseDup]) none).alerts.map
        (fun a => a.testName) = ["Glucose", "Glucose"] ∧
    ¬ (detectCriticalValues [] (some [cfGlucoseDup, cfGlucoseDup]) none).alerts.Pairwise
        distinctNames := by
  constructor
  · rfl
  · decide

/-- C7 amended: provided the structured-findings path itself yields alerts
with pairwise distinct test names (it has no internal dedup), no two alerts
of the final result share a test name case-insensitively, whichever of the
three paths produced them - the first path to report a name wins; and the
same critical glucose value supplied both in a structured finding and in
the raw text yields exactly one alert. -/
theorem C7_alert_dedup :
    (∀ (t : Str) (kf : Option (List Finding)) (av : Option (List AbnormalValue)),
      (findingsPathAlerts (kf.getD [])).Pairwise distinctNames →
      (detectCriticalValues t kf av).alerts.Pairwise distinctNames) ∧
    (detectCriticalValues "Glucose: 45 mg/dL".data (some [cfGlucose]) none).alerts.length = 1 := by
  constructor
  · intro t kf av h
    rw [detectCriticalValues]
    dsimp only
    split
    · exact List.Pairwise.nil
    · have hca := collectAlerts_pairwise t (kf.getD []) (av.getD []) h
      exact hca.perm (sortBy_perm _ _).symm (fun hab => distinctNames_symm hab)
  · rfl

/-- Witness for C7: a single structured glucose finding (pairwise-distinct
findings path) yields a deduplicated result even with the same value in the
raw text. -/
theorem C7_alert_dedup_witness :
    (detectCriticalValues "Glucose: 45 mg/dL".data (some [cfGlucose]) none).alerts.Pairwise
      distinctNames :=
  C7_alert_dedup.1 "Glucose: 45 mg/dL".data (some [cfGlucose]) none (by decide)

theorem findNlIdx_no_nl {l : Str} (h : '\n' ∉ l) : findNlIdx l = none := by
  induction l with
  | nil => rfl
  | cons c rest ih =>
    have hcne : ¬(c = '\n') := fun hEq => h (List.mem_cons.mpr (Or.inl hEq.symm))
    have htail : '\n' ∉ rest := fun hm => h (List.mem_cons_of_mem c hm)
    rw [findNlIdx, if_neg hcne, ih htail]
    rfl

theorem findNlIdx_append {l r : Str} (h : '\n' ∉ l) :
    findNlIdx (l ++ '\n' :: r) = some l.length := by
  induction l with
  | nil => simp [findNlIdx]
  | cons c rest ih =>
    have hcne : ¬(c = '\n') := fun hEq => h (List.mem_cons.mpr (Or.inl hEq.symm))
    have htail : '\n' ∉ rest := fun hm => h (List.mem_cons_of_mem c hm)
    rw [List.cons_append, findNlIdx, if_neg hcne, ih htail]
    rfl

theorem frame_assoc (pre line suf : Str) :
    pre ++ '\n' :: line ++ '\n' :: suf = (pre ++ ['\n']) ++ (line ++ '\n' :: suf) := by
  simp

theorem frame_len (pre : Str) (k : Nat) :
    pre.length + 1 + k = (pre ++ ['\n']).length + k := by simp

theorem lineStartAt_frame (pre line suf : Str) (s : Nat)
    (hnl : '\n' ∉ line) (hs : s ≤ line.length) :
    lineStartAt (pre ++ '\n' :: line ++ '\n' :: suf) (pre.length + 1 + s) =
      pre.length + 1 := by
  have hnotin : '\n' ∉ (line.take s).reverse := by
    intro hm
    exact hnl (List.take_subset s line (List.mem_reverse.mp hm))
  have hgoal : findNlIdx ((line.take s).reverse ++ '\n' :: pre.reverse) = some s := by
    rw [findNlIdx_append hnotin]
    congr 1
    rw [List.length_reverse, List.length_take]
    omega
  rw [lineStartAt, frame_assoc, frame_len pre s, List.take_append s,
    List.take_append_of_le_length hs]
  simp only [List.reverse_append, List.reverse_singleton, List.singleton_append]
  rw [hgoal]
  dsimp only
  simp only [List.length_append, List.length_singleton]
  omega

theorem findNlFrom_frame (pre line suf : Str) (e : Nat)
    (hnl : '\n' ∉ line) (he : e ≤ line.length) :
    findNlFrom (pre ++ '\n' :: line ++ '\n' :: suf) (pre.length + 1 + e) =
      pre.length + 1 + line.length := by
  have hnotin : '\n' ∉ line.drop e := fun hm => hnl (List.drop_subset e line hm)
  rw [findNlFrom, frame_assoc, frame_len pre e, List.drop_append e,
    List.drop_append_of_le_length he, findNlIdx_append hnotin]
  dsimp only
  simp only [List.length_append, List.length_singleton, List.length_drop]
  omega

theorem slice_frame (pre line suf : Str) :
    pySlice (pre ++ '\n' :: line ++ '\n' :: suf) (pre.length + 1)
      (pre.length + 1 + line.length) = line := by
  rw [pySlice, frame_assoc, frame_len pre line.length, List.take_append,
    List.take_append_of_le_length (le_refl _), List.take_length]
  rw [show (pre.length + 1 : Nat) = (pre ++ ['\n']).length from by simp]
  exact List.drop_left _ _

/-- C8: the medical-context classifier decides by the enclosing line alone
(for a span inside a newline-framed line, the result equals the keyword
check of that line, whatever the surrounding lines hold); consequently the
one-line hemoglobin text yields no PHONE entity while the two-line text
with the phone number on its own line yields exactly the expected PHONE
entity at span [7,21). -/
theorem C8_medical_context_suppression :
    (∀ (pre line suf : Str) (s e : Nat), '\n' ∉ line → s ≤ line.length → e ≤ line.length →
      isMedicalContext (pre ++ '\n' :: line ++ '\n' :: suf)
          (pre.length + 1 + s) (pre.length + 1 + e) =
        medicalKeywords.any (fun kw => strIn kw (lowerStr line))) ∧
    (regexDetect "Hemoglobin: 9876543210 g/dL reference range".data).filter
        (fun e => e.entityType == "PHONE") = [] ∧
    ((regexDetect "Phone: +91-9876543210\nHemoglobin: 8.2 g/dL".data).filter
        (fun e => e.entityType == "PHONE")).map (fun e => (e.entityType, e.start, e.stop)) =
      [("PHONE", 7, 21)] := by
  refine ⟨?_, by rfl, by rfl⟩
  intro pre line suf s e hnl hs he
  rw [isMedicalContext, lineStartAt_frame pre line suf s hnl hs,
    findNlFrom_frame pre line suf e hnl he, slice_frame]

/-- Witness for C8: the classifier applied to a span of a lab-value line
framed by unrelated lines. -/
theorem C8_medical_context_suppression_witness :
    isMedicalContext ("ab".data ++ '\n' :: "Hb: 8.2 g/dL".data ++ '\n' :: "cd".data)
        ("ab".data.length + 1 + 4) ("ab".data.length + 1 + 7) =
      medicalKeywords.any (fun kw => strIn kw (lowerStr "Hb: 8.2 g/dL".data)) :=
  C8_medical_context_suppression.1 "ab".data "Hb: 8.2 g/dL".data "cd".data 4 7
    (by decide) (by decide) (by decide)

theorem isDigit_ofNat {r : Nat} (h : r < 10) : isDigitC (Char.ofNat (48 + r)) = true := by
  interval_cases r <;> decide

theorem charVal_ofNat {r : Nat} (h : r < 10) : charVal (Char.ofNat (48 + r)) = r := by
  interval_cases r <;> decide

theorem natDigsF_mono : ∀ fuel fuel2 n, n ≤ fuel → n ≤ fuel2 →
    natDigsF fuel n = natDigsF fuel2 n := by
  intro fuel
  induction fuel with
  | zero =>
    intro fuel2 n h1 _
    have h0 : n = 0 := Nat.le_zero.mp h1
    subst h0
    cases fuel2 with
    | zero => rfl
    | succ f2 => simp [natDigsF]
  | succ f ih =>
    intro fuel2 n h1 h2
    cases fuel2 with
    | zero =>
      have h0 : n = 0 := Nat.le_zero.mp h2
      subst h0
      simp [natDigsF]
    | succ f2 =>
      by_cases h0 : n = 0
      · subst h0; simp [natDigsF]
      · simp only [natDigsF, if_neg h0]
        congr 1
        have hd : n / 10 < n := Nat.div_lt_self (Nat.pos_of_ne_zero h0) (by omega)
        exact ih f2 (n / 10) (by omega) (by omega)

theorem natDigs_eq (n : Nat) :
    natDigs n = if n = 0 then [] else natDigs (n / 10) ++ [Char.ofNat (48 + n % 10)] := by
  by_cases h0 : n = 0
  · subst h0; rfl
  · rw [if_neg h0]
    cases n with
    | zero => exact absurd rfl h0
    | succ m =>
      show natDigsF (m+1) (m+1) = _
      simp only [natDigsF, if_neg h0]
      congr 1
      have hd : (m+1) / 10 < m+1 := Nat.div_lt_self (Nat.succ_pos m) (by omega)
      exact natDigsF_mono m ((m+1) / 10) ((m+1) / 10) (by omega) (le_refl _)

theorem replaceAllF_mono (p v : Str) : ∀ fuel fuel2 s, s.length ≤ fuel → s.length ≤ fuel2 →
    replaceAllF p v fuel s = replaceAllF p v fuel2 s := by
  intro fuel
  induction fuel with
  | zero =>
    intro fuel2 s h1 _
    have h0 : s = [] := List.eq_nil_of_length_eq_zero (Nat.le_zero.mp h1)
    subst h0
    cases fuel2 <;> rfl
  | succ f ih =>
    intro fuel2 s h1 h2
    cases s with
    | nil => cases fuel2 <;> rfl
    | cons c rest =>
      cases fuel2 with
      | zero => rw [List.length_cons] at h2; omega
      | succ f2 =>
        rw [List.length_cons] at h1 h2
        by_cases hc : (!p.isEmpty && strHasPfx p (c :: rest)) = true
        · simp only [replaceAllF, if_pos hc]
          congr 1
          refine ih f2 _ ?_ ?_ <;> rw [List.length_drop] <;> omega
        · simp only [replaceAllF, if_neg hc]
          congr 1
          exact ih f2 rest (by omega) (by omega)

theorem natDigs_digits : ∀ n : Nat, ∀ c ∈ natDigs n, isDigitC c = true := by
  intro n
  induction n using Nat.strong_induction_on with
  | _ n ih =>
    intro c hc
    rw [natDigs_eq] at hc
    by_cases h0 : n = 0
    · rw [if_pos h0] at hc; cases hc
    · rw [if_neg h0] at hc
      rcases List.mem_append.mp hc with hc | hc
      · exact ih (n / 10) (Nat.div_lt_self (Nat.pos_of_ne_zero h0) (by omega)) c hc
      · rcases List.mem_singleton.mp hc with rfl
        exact isDigit_ofNat (Nat.mod_lt n (by omega))

theorem natToStr_digits (n : Nat) : ∀ c ∈ natToStr n, isDigitC c = true := by
  intro c hc
  rw [natToStr] at hc
  by_cases h0 : n = 0
  · rw [if_pos h0] at hc
    rcases List.mem_singleton.mp hc with rfl
    decide
  · rw [if_neg h0] at hc
    exact natDigs_digits n c hc

theorem natOfDigits_append_one (l : Str) (c : Char) :
    natOfDigits (l ++ [c]) = natOfDigits l * 10 + charVal c := by
  rw [natOfDigits, natOfDigits, List.foldl_append]
  rfl

theorem natOfDigits_natDigs : ∀ n : Nat, natOfDigits (natDigs n) = n := by
  intro n
  induction n using Nat.strong_induction_on with
  | _ n ih =>
    rw [natDigs_eq]
    by_cases h0 : n = 0
    · rw [if_pos h0, h0]; rfl
    · rw [if_neg h0, natOfDigits_append_one,
        ih (n / 10) (Nat.div_lt_self (Nat.pos_of_ne_zero h0) (by omega)),
        charVal_ofNat (Nat.mod_lt n (by omega))]
      omega

theorem natToStr_inj {a b : Nat} (h : natToStr a = natToStr b) : a = b := by
  have ha : natOfDigits (natToStr a) = a := by
    rw [natToStr]
    by_cases h0 : a = 0
    · rw [if_pos h0, h0]; rfl
    · rw [if_neg h0]; exact natOfDigits_natDigs a
  have hb : natOfDigits (natToStr b) = b := by
    rw [natToStr]
    by_cases h0 : b = 0
    · rw [if_pos h0, h0]; rfl
    · rw [if_neg h0]; exact natOfDigits_natDigs b
  rw [← ha, ← hb, h]

theorem split_undigit {x : Char} (hx : isDigitC x = false) :
    ∀ {a a' r r' : Str}, (∀ ch ∈ a, isDigitC ch = true) → (∀ ch ∈ a', isDigitC ch = true) →
      a ++ x :: r = a' ++ x :: r' → a = a' ∧ r = r' := by
  intro a
  induction a with
  | nil =>
    intro a' r r' _ ha' h
    cases a' with
    | nil => simp only [List.nil_append] at h; exact ⟨rfl, (List.cons.injEq _ _ _ _).mp h |>.2⟩
    | cons d a2 =>
      simp only [List.nil_append, List.cons_append, List.cons.injEq] at h
      have := ha' d (List.mem_cons_self _ _)
      rw [← h.1] at this
      rw [this] at hx
      cases hx
  | cons d a2 ih =>
    intro a' r r' ha ha' h
    cases a' with
    | nil =>
      simp only [List.cons_append, List.nil_append, List.cons.injEq] at h
      have := ha d (List.mem_cons_self _ _)
      rw [h.1] at this
      rw [this] at hx
      cases hx
    | cons d' a2' =>
      simp only [List.cons_append, List.cons.injEq] at h
      rcases h with ⟨hd, htail⟩
      rcases ih (fun ch hch => ha ch (List.mem_cons_of_mem _ hch))
        (fun ch hch => ha' ch (List.mem_cons_of_mem _ hch)) htail with ⟨h1, h2⟩
      exact ⟨by rw [hd, h1], h2⟩

theorem placeholderStr_inj {ty ty' : String} {c c' : Nat}
    (hty : ∀ ch ∈ ty.data, isDigitC ch = false)
    (hty' : ∀ ch ∈ ty'.data, isDigitC ch = false)
    (h : placeholderStr ty c = placeholderStr ty' c') : ty = ty' ∧ c = c' := by
  rw [placeholderStr, placeholderStr] at h
  have h2 : ty.data ++ '_' :: natToStr c ++ [']'] = ty'.data ++ '_' :: natToStr c' ++ [']'] :=
    (List.cons.injEq _ _ _ _).mp h |>.2
  have h3 := congrArg List.reverse h2
  simp only [List.reverse_append, List.reverse_cons, List.append_assoc,
    List.singleton_append, List.nil_append] at h3
  have h4 : (natToStr c).reverse ++ '_' :: ty.data.reverse =
      (natToStr c').reverse ++ '_' :: ty'.data.reverse := by
    have := (List.cons.injEq _ _ _ _).mp h3 |>.2
    simpa using this
  have hdig : ∀ ch ∈ (natToStr c).reverse, isDigitC ch = true :=
    fun ch hch => natToStr_digits c ch (List.mem_reverse.mp hch)
  have hdig' : ∀ ch ∈ (natToStr c').reverse, isDigitC ch = true :=
    fun ch hch => natToStr_digits c' ch (List.mem_reverse.mp hch)
  rcases split_undigit (by decide) hdig hdig' h4 with ⟨hnum, hrest⟩
  constructor
  · have : ty.data = ty'.data := by
      have := congrArg List.reverse hrest
      simpa using this
    cases ty; cases ty'
    exact congrArg String.mk this
  · exact natToStr_inj (by
      have := congrArg List.reverse hnum
      simpa using this)

/-- Absence of both bracket characters (the shape of original text the
round-trip argument needs). -/
def noBr (s : Str) : Prop := '[' ∉ s ∧ ']' ∉ s

instance (s : Str) : Decidable (noBr s) := inferInstanceAs (Decidable (_ ∧ _))

/-- A well-formed placeholder token: an opening bracket, a bracket-free
interior, a closing bracket. -/
def wfTok (p : Str) : Prop := ∃ w, p = '[' :: w ++ [']'] ∧ '[' ∉ w ∧ ']' ∉ w

/-- Segment decomposition of an anonymised text: literal runs of the
original text interleaved with placeholder tokens. -/
inductive SegItem where
  | raw (s : Str)
  | tok (p v : Str)

def flattenSegs : List SegItem → Str
  | [] => []
  | .raw s :: rest => s ++ flattenSegs rest
  | .tok p _ :: rest => p ++ flattenSegs rest

def restoreSegs : List SegItem → Str
  | [] => []
  | .raw s :: rest => s ++ restoreSegs rest
  | .tok _ v :: rest => v ++ restoreSegs rest

/-- A segment item is sound for a mapping: raw runs are bracket-free, and a
token is a well-formed placeholder that the mapping sends to its
bracket-free original value. -/
def SegOK (m : PIIMapping) : SegItem → Prop
  | .raw s => noBr s
  | .tok p v => wfTok p ∧ alGet p m.p2o = some v ∧ noBr v

/-- An entity type acceptable as a placeholder interior: bracket-free and
digit-free (every type of the pattern table qualifies). -/
def usedTypeOK (ty : String) : Prop :=
  '[' ∉ ty.data ∧ ']' ∉ ty.data ∧ ∀ ch ∈ ty.data, isDigitC ch = false

/-- The mapping invariant maintained by placeholder-strategy redaction:
every forward key is a placeholder of a sound type with index within the
per-type counter, every stored value is bracket-free, and the inverse map
is coherent with the forward map. -/
def MInv (m : PIIMapping) : Prop :=
  (∀ kv ∈ m.p2o, (∃ ty c, usedTypeOK ty ∧ kv.1 = placeholderStr ty c ∧
      1 ≤ c ∧ c ≤ (alGet ty m.counts).getD 0) ∧ noBr kv.2) ∧
  (∀ pr ∈ m.o2p, alGet pr.2 m.p2o = some pr.1)

theorem MInv_empty : MInv PIIMapping.empty := by
  constructor
  · intro kv hkv; cases hkv
  · intro pr hpr; cases hpr

theorem digit_ne_brackets {ch : Char} (h : isDigitC ch = true) :
    ¬(ch = '[') ∧ ¬(ch = ']') := by
  constructor <;> intro hEq <;> rw [hEq] at h <;> exact absurd h (by decide)

theorem wfTok_placeholder {ty : String} (c : Nat) (h : usedTypeOK ty) :
    wfTok (placeholderStr ty c) := by
  refine ⟨ty.data ++ '_' :: natToStr c, ?_, ?_, ?_⟩
  · rw [placeholderStr]
    simp
  · intro hm
    rcases List.mem_append.mp hm with hm | hm
    · exact h.1 hm
    · rcases List.mem_cons.mp hm with hm | hm
      · cases hm
      · exact (digit_ne_brackets (natToStr_digits c _ hm)).1 rfl
  · intro hm
    rcases List.mem_append.mp hm with hm | hm
    · exact h.2.1 hm
    · rcases List.mem_cons.mp hm with hm | hm
      · cases hm
      · exact (digit_ne_brackets (natToStr_digits c _ hm)).2 rfl

theorem alSet_append_of_none {κ β : Type} [DecidableEq κ] {key : κ} (val : β) :
    ∀ {l : List (κ × β)}, alGet key l = none → alSet key val l = l ++ [(key, val)] := by
  intro l
  induction l with
  | nil => intro _; rfl
  | cons kv rest ih =>
    intro h
    rw [alGet] at h
    by_cases hk : kv.1 = key
    · rw [if_pos hk] at h; cases h
    · rw [if_neg hk] at h
      rw [alSet, if_neg hk, ih h]
      rfl

theorem add_fresh_none {m : PIIMapping} (hm : MInv m) {ty : String} (hty : usedTypeOK ty) :
    alGet (placeholderStr ty ((alGet ty m.counts).getD 0 + 1)) m.p2o = none := by
  cases hg : alGet (placeholderStr ty ((alGet ty m.counts).getD 0 + 1)) m.p2o with
  | none => rfl
  | some w =>
    have hmem := alGet_mem hg
    rcases hm.1 _ hmem with ⟨⟨ty', c', hty', heq, _, h2⟩, _⟩
    rcases placeholderStr_inj hty.2.2 hty'.2.2 heq with ⟨hts, hcs⟩
    rw [← hts] at h2
    omega

theorem add_spec {m : PIIMapping} (hm : MInv m) {ty : String} (hty : usedTypeOK ty)
    {v : Str} (hv : noBr v) :
    MInv (m.add ty v).2 ∧
    wfTok (m.add ty v).1 ∧
    alGet (m.add ty v).1 (m.add ty v).2.p2o = some v ∧
    (∀ q w, alGet q m.p2o = some w → alGet q (m.add ty v).2.p2o = some w) := by
  cases h : alGet v m.o2p with
  | some p =>
    have hadd : m.add ty v = (p, m) := by simp only [PIIMapping.add, h]
    rw [hadd]
    have hcoh : alGet p m.p2o = some v := hm.2 (v, p) (alGet_mem h)
    have hwf : wfTok p := by
      rcases hm.1 _ (alGet_mem hcoh) with ⟨⟨ty', c', hty', heq, _, _⟩, _⟩
      have heq2 : p = placeholderStr ty' c' := heq
      rw [heq2]
      exact wfTok_placeholder c' hty'
    exact ⟨hm, hwf, hcoh, fun q w hq => hq⟩
  | none =>
    have hfresh := add_fresh_none hm hty
    have hadd : m.add ty v =
        (placeholderStr ty ((alGet ty m.counts).getD 0 + 1),
         { p2o := alSet (placeholderStr ty ((alGet ty m.counts).getD 0 + 1)) v m.p2o,
           o2p := alSet v (placeholderStr ty ((alGet ty m.counts).getD 0 + 1)) m.o2p,
           counts := alSet ty ((alGet ty m.counts).getD 0 + 1) m.counts }) := by
      simp only [PIIMapping.add, h]
    rw [hadd]
    have hp2o : alSet (placeholderStr ty ((alGet ty m.counts).getD 0 + 1)) v m.p2o =
        m.p2o ++ [(placeholderStr ty ((alGet ty m.counts).getD 0 + 1), v)] :=
      alSet_append_of_none v hfresh
    have ho2p : alSet v (placeholderStr ty ((alGet ty m.counts).getD 0 + 1)) m.o2p =
        m.o2p ++ [(v, placeholderStr ty ((alGet ty m.counts).getD 0 + 1))] :=
      alSet_append_of_none _ h
    have hpres : ∀ q w, alGet q m.p2o = some w →
        alGet q (alSet (placeholderStr ty ((alGet ty m.counts).getD 0 + 1)) v m.p2o) = some w := by
      intro q w hq
      have hne : placeholderStr ty ((alGet ty m.counts).getD 0 + 1) ≠ q := by
        intro hEq
        rw [hEq, hq] at hfresh
        cases hfresh
      rw [alGet_alSet_ne _ hne]
      exact hq
    refine ⟨⟨?_, ?_⟩, wfTok_placeholder _ hty, alGet_alSet_self _ _ _, hpres⟩
    · intro kv hkv
      rw [hp2o] at hkv
      rcases List.mem_append.mp hkv with hkv | hkv
      · rcases hm.1 kv hkv with ⟨⟨ty', c', hty', heq, h1, h2⟩, hbr⟩
        refine ⟨⟨ty', c', hty', heq, h1, ?_⟩, hbr⟩
        by_cases hts : ty = ty'
        · rw [← hts] at h2 ⊢
          rw [alGet_alSet_self]
          simp only [Option.getD_some]
          simp only [Option.getD] at h2 ⊢
          omega
        · rw [alGet_alSet_ne _ hts]
          exact h2
      · rcases List.mem_singleton.mp hkv with rfl
        refine ⟨⟨ty, (alGet ty m.counts).getD 0 + 1, hty, rfl, by omega, ?_⟩, hv⟩
        rw [alGet_alSet_self]
        simp
    · intro pr hpr
      rw [ho2p] at hpr
      rcases List.mem_append.mp hpr with hpr | hpr
      · exact hpres pr.2 pr.1 (hm.2 pr hpr)
      · rcases List.mem_singleton.mp hpr with rfl
        exact alGet_alSet_self _ _ _

theorem strHasPfx_append_self : ∀ (p X : Str), strHasPfx p (p ++ X) = true := by
  intro p
  induction p with
  | nil => intro X; rfl
  | cons c p2 ih =>
    intro X
    rw [List.cons_append, strHasPfx, ih X]
    simp

theorem replaceAll_cons_pos {p : Str} (v : Str) {c : Char} {rest : Str}
    (h : (!p.isEmpty && strHasPfx p (c :: rest)) = true) :
    replaceAll p v (c :: rest) = v ++ replaceAll p v (rest.drop (p.length - 1)) := by
  show replaceAllF p v (c :: rest).length (c :: rest) = _
  rw [List.length_cons]
  simp only [replaceAllF, if_pos h]
  congr 1
  rw [replaceAll]
  exact replaceAllF_mono p v rest.length _ _ (by rw [List.length_drop]; omega) (le_refl _)

theorem replaceAll_cons_neg {p : Str} (v : Str) {c : Char} {rest : Str}
    (h : ¬((!p.isEmpty && strHasPfx p (c :: rest)) = true)) :
    replaceAll p v (c :: rest) = c :: replaceAll p v rest := by
  show replaceAllF p v (c :: rest).length (c :: rest) = _
  rw [List.length_cons]
  simp only [replaceAllF, if_neg h]
  rw [replaceAll]

theorem replaceAll_self_append {p : Str} (hp : p ≠ []) (v X : Str) :
    replaceAll p v (p ++ X) = v ++ replaceAll p v X := by
  cases p with
  | nil => exact absurd rfl hp
  | cons c p2 =>
    rw [List.cons_append]
    rw [replaceAll_cons_pos v (by
      rw [Bool.and_eq_true]
      refine ⟨rfl, ?_⟩
      rw [← List.cons_append]
      exact strHasPfx_append_self (c :: p2) X)]
    congr 1
    rw [List.length_cons]
    simp only [Nat.add_sub_cancel]
    congr 1
    exact List.drop_left p2 X

theorem replaceAll_skip_noOpen {p : Str} {pw : Str} (hp : p = '[' :: pw) (v : Str) :
    ∀ {s : Str}, '[' ∉ s → ∀ R, replaceAll p v (s ++ R) = s ++ replaceAll p v R := by
  intro s
  induction s with
  | nil => intro _ R; rfl
  | cons c s2 ih =>
    intro hno R
    have hcne : ¬(c = '[') := fun hEq => hno (List.mem_cons.mpr (Or.inl hEq.symm))
    rw [List.cons_append]
    rw [replaceAll_cons_neg v (by
      intro hcond
      rw [Bool.and_eq_true] at hcond
      have hpre := hcond.2
      rw [hp, strHasPfx, Bool.and_eq_true] at hpre
      exact hcne (beq_iff_eq.mp hpre.1).symm)]
    rw [ih (fun hm => hno (List.mem_cons_of_mem c hm)) R, List.cons_append]

theorem tok_prefix_eq : ∀ (w' w : Str), ']' ∉ w → ']' ∉ w' →
    ∀ R, strHasPfx (w' ++ [']']) ((w ++ [']']) ++ R) = true → w' = w := by
  intro w'
  induction w' with
  | nil =>
    intro w hw _ R hpre
    cases w with
    | nil => rfl
    | cons c w2 =>
      simp only [List.nil_append, List.cons_append, List.singleton_append,
        strHasPfx, Bool.and_eq_true] at hpre
      exact absurd (List.mem_cons.mpr (Or.inl (beq_iff_eq.mp hpre.1))) hw
  | cons c' w2' ih =>
    intro w hw hw' R hpre
    cases w with
    | nil =>
      simp only [List.cons_append, List.nil_append, List.singleton_append,
        strHasPfx, Bool.and_eq_true] at hpre
      exact absurd (List.mem_cons.mpr (Or.inl (beq_iff_eq.mp hpre.1).symm)) hw'
    | cons c w2 =>
      simp only [List.cons_append, strHasPfx, Bool.and_eq_true] at hpre
      have hc : c' = c := beq_iff_eq.mp hpre.1
      have htail := ih w2 (fun hm => hw (List.mem_cons_of_mem c hm))
        (fun hm => hw' (List.mem_cons_of_mem c' hm)) R hpre.2
      rw [hc, htail]

theorem replaceAll_skip_tok {p q : Str} (hp : wfTok p) (hq : wfTok q) (hne : q ≠ p)
    (v : Str) (R : Str) : replaceAll p v (q ++ R) = q ++ replaceAll p v R := by
  rcases hp with ⟨w', hpe, hpo, hpc⟩
  rcases hq with ⟨w, hqe, hqo, hqc⟩
  have hpe' : p = '[' :: (w' ++ [']']) := by rw [hpe]; simp
  have hstep2 : replaceAll p v (']' :: R) = ']' :: replaceAll p v R := by
    have hsk := replaceAll_skip_noOpen hpe' v (s := [']']) (by decide) R
    simpa using hsk
  have hcond : ¬((!p.isEmpty && strHasPfx p ('[' :: ((w ++ [']']) ++ R))) = true) := by
    intro hcond
    rw [Bool.and_eq_true] at hcond
    have hpre := hcond.2
    rw [hpe', strHasPfx, Bool.and_eq_true] at hpre
    exact hne (by rw [hqe, hpe, tok_prefix_eq w' w hqc hpc R hpre.2])
  calc replaceAll p v (q ++ R)
      = replaceAll p v ('[' :: ((w ++ [']']) ++ R)) := by rw [hqe]; simp
    _ = '[' :: replaceAll p v ((w ++ [']']) ++ R) := replaceAll_cons_neg v hcond
    _ = '[' :: replaceAll p v (w ++ (']' :: R)) := by simp
    _ = '[' :: (w ++ replaceAll p v (']' :: R)) := by
          rw [replaceAll_skip_noOpen hpe' v hqo (']' :: R)]
    _ = '[' :: (w ++ (']' :: replaceAll p v R)) := by rw [hstep2]
    _ = q ++ replaceAll p v R := by rw [hqe]; simp

theorem replaceAll_nil (p v : Str) : replaceAll p v [] = [] := rfl

/-- Effect of one deanonymise replacement step on a segment item. -/
def replTokF (p v : Str) : SegItem → SegItem
  | .tok q w => if q = p then .raw v else .tok q w
  | it => it

theorem replaceAll_flatten {m : PIIMapping} {p v : Str} (hp : wfTok p) :
    ∀ items : List SegItem, (∀ it ∈ items, SegOK m it) →
      replaceAll p v (flattenSegs items) = flattenSegs (items.map (replTokF p v)) := by
  obtain ⟨w0, hpe0, hpo0, hpc0⟩ := hp
  have hpe' : p = '[' :: (w0 ++ [']']) := by rw [hpe0]; simp
  have hpne : p ≠ [] := by rw [hpe']; exact List.cons_ne_nil _ _
  intro items
  induction items with
  | nil =>
    intro _
    show replaceAll p v [] = flattenSegs []
    rw [replaceAll_nil]
    rfl
  | cons it rest ih =>
    intro hok
    have hrest := fun it2 h2 => hok it2 (List.mem_cons_of_mem it h2)
    cases it with
    | raw s =>
      have hs : noBr s := hok (.raw s) (List.mem_cons_self _ _)
      show replaceAll p v (s ++ flattenSegs rest) =
        flattenSegs (.raw s :: rest.map (replTokF p v))
      rw [replaceAll_skip_noOpen hpe' v hs.1 (flattenSegs rest)]
      show s ++ replaceAll p v (flattenSegs rest) = s ++ flattenSegs (rest.map (replTokF p v))
      rw [ih hrest]
    | tok q w =>
      have hq := hok (.tok q w) (List.mem_cons_self _ _)
      by_cases hqp : q = p
      · show replaceAll p v (q ++ flattenSegs rest) =
          flattenSegs (replTokF p v (.tok q w) :: rest.map (replTokF p v))
        have hrepl : replTokF p v (.tok q w) = .raw v := by
          rw [replTokF, if_pos hqp]
        rw [hrepl, hqp, replaceAll_self_append hpne v (flattenSegs rest)]
        show v ++ replaceAll p v (flattenSegs rest) = v ++ flattenSegs (rest.map (replTokF p v))
        rw [ih hrest]
      · show replaceAll p v (q ++ flattenSegs rest) =
          flattenSegs (replTokF p v (.tok q w) :: rest.map (replTokF p v))
        rw [replaceAll_skip_tok ⟨w0, hpe0, hpo0, hpc0⟩ hq.1 hqp v (flattenSegs rest)]
        have hrepl : replTokF p v (.tok q w) = .tok q w := by
          rw [replTokF, if_neg hqp]
        rw [hrepl]
        show q ++ replaceAll p v (flattenSegs rest) = q ++ flattenSegs (rest.map (replTokF p v))
        rw [ih hrest]

theorem noBr_getD {m : PIIMapping} (hm : MInv m) (k : Str) :
    noBr ((alGet k m.p2o).getD []) := by
  cases hg : alGet k m.p2o with
  | none =>
    simp only [Option.getD_none]
    exact ⟨List.not_mem_nil _, List.not_mem_nil _⟩
  | some w =>
    simp only [Option.getD_some]
    exact (hm.1 _ (alGet_mem hg)).2

theorem flatten_eq_restore_no_tok : ∀ items : List SegItem,
    (∀ q w, SegItem.tok q w ∈ items → False) → flattenSegs items = restoreSegs items := by
  intro items
  induction items with
  | nil => intro _; rfl
  | cons it rest ih =>
    intro hcov
    cases it with
    | raw s =>
      show s ++ flattenSegs rest = s ++ restoreSegs rest
      rw [ih (fun q w hqw => hcov q w (List.mem_cons_of_mem _ hqw))]
    | tok q w => exact absurd (List.mem_cons_self _ _) (fun h => hcov q w h)

theorem restore_map_replTok {m : PIIMapping} (k : Str) :
    ∀ items : List SegItem, (∀ it ∈ items, SegOK m it) →
      restoreSegs (items.map (replTokF k ((alGet k m.p2o).getD []))) = restoreSegs items := by
  intro items
  induction items with
  | nil => intro _; rfl
  | cons it rest ih =>
    intro hok
    have hrest := fun it2 h2 => hok it2 (List.mem_cons_of_mem it h2)
    cases it with
    | raw s =>
      show s ++ restoreSegs (rest.map (replTokF k _)) = s ++ restoreSegs rest
      rw [ih hrest]
    | tok q w =>
      by_cases hqk : q = k
      · have hget : alGet k m.p2o = some w := by
          rw [← hqk]
          exact (hok (.tok q w) (List.mem_cons_self _ _)).2.1
        have hrepl : replTokF k ((alGet k m.p2o).getD []) (.tok q w) =
            .raw ((alGet k m.p2o).getD []) := by
          rw [replTokF, if_pos hqk]
        rw [List.map_cons, hrepl]
        show (alGet k m.p2o).getD [] ++
            restoreSegs (rest.map (replTokF k ((alGet k m.p2o).getD []))) =
          w ++ restoreSegs rest
        rw [ih hrest, hget]
        rfl
      · have hrepl : replTokF k ((alGet k m.p2o).getD []) (.tok q w) = .tok q w := by
          rw [replTokF, if_neg hqk]
        rw [List.map_cons, hrepl]
        show w ++ restoreSegs (rest.map (replTokF k _)) = w ++ restoreSegs rest
        rw [ih hrest]

theorem dean_fold {m : PIIMapping} (hm : MInv m) :
    ∀ keys : List Str, (∀ k ∈ keys, wfTok k) →
      ∀ items : List SegItem, (∀ it ∈ items, SegOK m it) →
      (∀ q w, SegItem.tok q w ∈ items → q ∈ keys) →
      keys.foldl (fun res p => replaceAll p ((alGet p m.p2o).getD []) res)
        (flattenSegs items) = restoreSegs items := by
  intro keys
  induction keys with
  | nil =>
    intro _ items _ hcov
    exact flatten_eq_restore_no_tok items
      (fun q w hqw => by cases hcov q w hqw)
  | cons k keys2 ih =>
    intro hwf items hok hcov
    rw [List.foldl_cons]
    rw [replaceAll_flatten (hwf k (List.mem_cons_self _ _)) items hok]
    have hres := restore_map_replTok (m := m) k items hok
    rw [← hres]
    apply ih (fun k2 h2 => hwf k2 (List.mem_cons_of_mem k h2))
    · intro it2 h2
      rcases List.mem_map.mp h2 with ⟨it, hit, hmap⟩
      cases it with
      | raw s =>
        have : it2 = .raw s := by rw [← hmap]; rfl
        rw [this]
        exact hok (.raw s) hit
      | tok q w =>
        by_cases hqk : q = k
        · subst hqk
          have : it2 = .raw ((alGet q m.p2o).getD []) := by
            rw [← hmap, replTokF, if_pos rfl]
          rw [this]
          exact noBr_getD hm q
        · have : it2 = .tok q w := by rw [← hmap, replTokF, if_neg hqk]
          rw [this]
          exact hok (.tok q w) hit
    · intro q w hqw
      rcases List.mem_map.mp hqw with ⟨it, hit, hmap⟩
      cases it with
      | raw s => exact SegItem.noConfusion hmap
      | tok q' w' =>
        by_cases hqk : q' = k
        · rw [replTokF, if_pos hqk] at hmap; cases hmap
        · rw [replTokF, if_neg hqk] at hmap
          cases hmap
          have := hcov q w hit
          rcases List.mem_cons.mp this with h | h
          · exact absurd h hqk
          · exact h

theorem deanonymise_restores {m : PIIMapping} (hm : MInv m) (items : List SegItem)
    (hok : ∀ it ∈ items, SegOK m it) :
    m.deanonymise (flattenSegs items) = restoreSegs items := by
  rw [PIIMapping.deanonymise]
  apply dean_fold hm
  · intro k hk
    rw [sortBy_mem] at hk
    rcases List.mem_map.mp hk with ⟨kv, hkv, hfst⟩
    rcases hm.1 kv hkv with ⟨⟨ty, c, hty, heq, _, _⟩, _⟩
    rw [← hfst]
    have heq2 : kv.1 = placeholderStr ty c := heq
    rw [heq2]
    exact wfTok_placeholder c hty
  · exact hok
  · intro q w hqw
    have hget := (hok _ hqw).2.1
    rw [sortBy_mem]
    exact List.mem_map_of_mem (fun kv => kv.1) (alGet_mem hget)

theorem foldl_preserve_mem {α β : Type} {P : α → Prop} {f : α → β → α} :
    ∀ {l : List β}, (∀ a b, b ∈ l → P a → P (f a b)) → ∀ a, P a → P (l.foldl f a) := by
  intro l
  induction l with
  | nil => intro _ a h; exact h
  | cons b rest ih =>
    intro hstep a h
    exact ih (fun a2 b2 hb2 => hstep a2 b2 (List.mem_cons_of_mem b hb2)) _
      (hstep a b (List.mem_cons_self _ _) h)

theorem regexDetectPattern_types (t : Str) (pd : PatternDef)
    (hpd : pd.entityType ∈ rePatterns.map (fun p => p.entityType))
    (acc : List PIIEntity × List Span)
    (h : ∀ e ∈ acc.1, e.entityType ∈ rePatterns.map (fun p => p.entityType)) :
    ∀ e ∈ (regexDetectPattern t pd acc).1,
      e.entityType ∈ rePatterns.map (fun p => p.entityType) := by
  rw [regexDetectPattern]
  refine foldl_preserve (P := fun acc2 => ∀ e ∈ acc2.1,
    e.entityType ∈ rePatterns.map (fun p => p.entityType)) ?_ _ acc h
  intro a b ha
  dsimp only
  split
  · exact ha
  · split
    · exact ha
    · split
      · exact ha
      · intro e he
        rcases List.mem_append.mp he with he | he
        · exact ha e he
        · rcases List.mem_singleton.mp he with rfl
          exact hpd

theorem regexDetect_types (t : Str) :
    ∀ e ∈ regexDetect t, e.entityType ∈ rePatterns.map (fun p => p.entityType) := by
  rw [regexDetect]
  refine foldl_preserve_mem (P := fun (acc : List PIIEntity × List Span) => ∀ e ∈ acc.1,
    e.entityType ∈ rePatterns.map (fun p => p.entityType)) ?_ _ ?_
  · intro acc pd hpd ha
    exact regexDetectPattern_types t pd (List.mem_map_of_mem _ hpd) acc ha
  · intro e he; cases he

theorem mergeFold_subset : ∀ (l : List PIIEntity) (acc : List PIIEntity × List Span),
    (l.foldl mergeStep acc).1 ⊆ acc.1 ++ l := by
  intro l
  induction l with
  | nil => intro acc x hx; simpa using hx
  | cons e rest ih =>
    intro acc x hx
    rw [List.foldl_cons] at hx
    have := ih (mergeStep acc e) hx
    rcases List.mem_append.mp this with h | h
    · rw [mergeStep] at h
      split at h
      · exact List.mem_append.mpr (Or.inl h)
      · rcases List.mem_append.mp h with h | h
        · exact List.mem_append.mpr (Or.inl h)
        · rcases List.mem_singleton.mp h with rfl
          exact List.mem_append.mpr (Or.inr (List.mem_cons_self _ _))
    · exact List.mem_append.mpr (Or.inr (List.mem_cons_of_mem _ h))

theorem mergeEntities_subset (p s : List PIIEntity) :
    mergeEntities p s ⊆ p ++ s := by
  intro x hx
  rw [mergeEntities] at hx
  have := mergeFold_subset (sortBy mergeKeyLE (p ++ s)) ([], []) hx
  rw [List.nil_append] at this
  exact (sortBy_mem _ _ x).mp this

theorem anonymiseEntities_subset (t : Str) (comp : List PIIEntity) (mc : ℚ) :
    anonymiseEntities t comp mc ⊆ regexDetect t ++ comp := by
  intro x hx
  rw [anonymiseEntities] at hx
  have h1 := (sortBy_mem _ _ x).mp hx
  exact mergeEntities_subset _ _ (List.mem_of_mem_filter h1)

theorem allPatternTypesOK :
    ∀ ty ∈ rePatterns.map (fun p => p.entityType), usedTypeOK ty := by
  intro ty hty
  fin_cases hty <;> exact ⟨by decide, by decide, by decide⟩

theorem spansIntersect_comm {a b : Span} (h : spansIntersect a b) : spansIntersect b a := by
  rw [spansIntersect] at h ⊢
  omega

theorem anonEntities_pairwise (t : Str) (comp : List PIIEntity) (mc : ℚ)
    (hne : ∀ e ∈ anonymiseEntities t comp mc, e.start < e.stop) :
    (anonymiseEntities t comp mc).Pairwise (fun a b => b.stop ≤ a.start) := by
  have hinv : mergeInv ((sortBy mergeKeyLE (regexDetect t ++ comp)).foldl mergeStep ([], [])) :=
    foldl_preserve (fun a b h => mergeStep_inv b h) _ _ ⟨rfl, List.Pairwise.nil⟩
  have h1 : (mergeEntities (regexDetect t) comp).Pairwise
      (fun a b => ¬ spansIntersect (a.start, a.stop) (b.start, b.stop)) :=
    hinv.2.imp (fun hnt hi => hnt (intersect_touches hi))
  have h2 : ((mergeEntities (regexDetect t) comp).filter
      (fun e => decide (mc ≤ e.score) && !(keepTypes.contains e.entityType))).Pairwise
      (fun a b => ¬ spansIntersect (a.start, a.stop) (b.start, b.stop)) :=
    h1.sublist (List.filter_sublist _)
  have h3 : (anonymiseEntities t comp mc).Pairwise
      (fun a b => ¬ spansIntersect (a.start, a.stop) (b.start, b.stop)) := by
    rw [anonymiseEntities]
    exact h2.perm (sortBy_perm _ _).symm
      (fun hab hi => hab (spansIntersect_comm hi))
  have h4 : (anonymiseEntities t comp mc).Pairwise
      (fun a b => decide (b.start ≤ a.start) = true) := by
    rw [anonymiseEntities]
    exact sortBy_sorted
      (fun a b => by
        rcases le_total b.start a.start with h | h
        · left; exact decide_eq_true h
        · right; exact decide_eq_true h)
      (fun a b c hab hbc => by
        have h1 := of_decide_eq_true hab
        have h2 := of_decide_eq_true hbc
        exact decide_eq_true (le_trans h2 h1)) _
  have h5 := h3.and h4
  refine h5.imp_of_mem ?_
  intro a b ha hb hr
  have hna := hne a ha
  have hnb := hne b hb
  have hle := of_decide_eq_true hr.2
  by_contra hcon
  push_neg at hcon
  refine hr.1 ?_
  rw [spansIntersect]
  simp only [max_lt_iff, lt_min_iff]
  omega

theorem take_take_of_le {α : Type} (t : List α) {a b : Nat} (h : a ≤ b) :
    (t.take b).take a = t.take a := by
  rw [List.take_take, Nat.min_eq_left h]

theorem drop_decompose {α : Type} (t : List α) {a b : Nat} (hab : a ≤ b)
    (hbl : b ≤ t.length) :
    t.drop a = (t.take b).drop a ++ t.drop b := by
  conv_lhs => rw [← List.take_append_drop b t]
  rw [List.drop_append_of_le_length]
  rw [List.length_take]
  omega

theorem noBr_sub {s u : Str} (hsub : s ⊆ u) (h : noBr u) : noBr s :=
  ⟨fun hm => h.1 (hsub hm), fun hm => h.2 (hsub hm)⟩

theorem noBr_slice {t : Str} (h : noBr t) (a b : Nat) : noBr (pySlice t a b) :=
  noBr_sub (fun _ hx => List.take_subset _ _ (List.drop_subset _ _ hx)) h

theorem redactStep_pos (hashHex : Str → Str) (acc : Str × PIIMapping × Nat)
    (e : PIIEntity)
    (hc : (highRiskTypes.contains e.entityType || e.source == "comprehend") = true) :
    redactStep hashHex RedactStrategy.placeholder acc e =
      (acc.1.take e.start ++ (acc.2.1.add e.entityType e.text).1 ++ acc.1.drop e.stop,
       (acc.2.1.add e.entityType e.text).2, acc.2.2 + 1) := by
  rw [redactStep, if_pos hc]
  rfl

theorem redactStep_neg (hashHex : Str → Str) (strategy : RedactStrategy)
    (acc : Str × PIIMapping × Nat) (e : PIIEntity)
    (hc : ¬ (highRiskTypes.contains e.entityType || e.source == "comprehend") = true) :
    redactStep hashHex strategy acc e = acc := by
  rw [redactStep, if_neg hc]

theorem redact_inv (hashHex : Str → Str) (t : Str) (hbr : noBr t) :
    ∀ (E : List PIIEntity) (cur : Str) (m : PIIMapping) (k : Nat)
      (cut : Nat) (items : List SegItem),
      cut ≤ t.length →
      cur = t.take cut ++ flattenSegs items →
      restoreSegs items = t.drop cut →
      (∀ it ∈ items, SegOK m it) →
      MInv m →
      (∀ e ∈ E, e.stop ≤ cut ∧ e.start < e.stop ∧
        e.text = pySlice t e.start e.stop ∧ usedTypeOK e.entityType) →
      E.Pairwise (fun a b => b.stop ≤ a.start) →
      ∃ cut2 items2,
        cut2 ≤ t.length ∧
        (E.foldl (redactStep hashHex RedactStrategy.placeholder) (cur, m, k)).1 =
          t.take cut2 ++ flattenSegs items2 ∧
        restoreSegs items2 = t.drop cut2 ∧
        (∀ it ∈ items2,
          SegOK (E.foldl (redactStep hashHex RedactStrategy.placeholder) (cur, m, k)).2.1 it) ∧
        MInv (E.foldl (redactStep hashHex RedactStrategy.placeholder) (cur, m, k)).2.1 := by
  intro E
  induction E with
  | nil =>
    intro cur m k cut items hcut hcur hres hok hm _ _
    exact ⟨cut, items, hcut, hcur, hres, hok, hm⟩
  | cons e E2 ih =>
    intro cur m k cut items hcut hcur hres hok hm hE hpw
    rw [List.foldl_cons]
    rcases hE e (List.mem_cons_self _ _) with ⟨hstop, hlt, htext, hty⟩
    rcases List.pairwise_cons.mp hpw with ⟨hhead, htail⟩
    by_cases hc : (highRiskTypes.contains e.entityType || e.source == "comprehend") = true
    · rw [redactStep_pos hashHex (cur, m, k) e hc]
      have hvbr : noBr e.text := by rw [htext]; exact noBr_slice hbr _ _
      have hadd := add_spec hm hty hvbr
      have hlen : (t.take cut).length = cut := by rw [List.length_take]; omega
      have h1 : cur.take e.start = t.take e.start := by
        rw [hcur, List.take_append_of_le_length (by rw [hlen]; omega),
          take_take_of_le t (by omega)]
      have h2 : cur.drop e.stop = (t.take cut).drop e.stop ++ flattenSegs items := by
        rw [hcur, List.drop_append_of_le_length (by rw [hlen]; omega)]
      have hd1 : t.drop e.stop = (t.take cut).drop e.stop ++ t.drop cut :=
        drop_decompose t hstop hcut
      have hd2 : t.drop e.start = (t.take e.stop).drop e.start ++ t.drop e.stop :=
        drop_decompose t (le_of_lt hlt) (by omega)
      refine ih _ _ _ e.start
        (SegItem.tok (m.add e.entityType e.text).1 e.text ::
          SegItem.raw ((t.take cut).drop e.stop) :: items)
        (by omega) ?_ ?_ ?_ hadd.1 ?_ htail
      · show cur.take e.start ++ (m.add e.entityType e.text).1 ++ cur.drop e.stop =
          t.take e.start ++ ((m.add e.entityType e.text).1 ++
            ((t.take cut).drop e.stop ++ flattenSegs items))
        rw [h1, h2, List.append_assoc]
      · calc restoreSegs (SegItem.tok (m.add e.entityType e.text).1 e.text ::
              SegItem.raw ((t.take cut).drop e.stop) :: items)
            = e.text ++ ((t.take cut).drop e.stop ++ restoreSegs items) := rfl
          _ = (t.take e.stop).drop e.start ++ ((t.take cut).drop e.stop ++ t.drop cut) := by
              rw [hres, htext]; rfl
          _ = (t.take e.stop).drop e.start ++ t.drop e.stop := by rw [← hd1]
          _ = t.drop e.start := hd2.symm
      · intro it hit
        rcases List.mem_cons.mp hit with rfl | hit
        · exact ⟨hadd.2.1, hadd.2.2.1, hvbr⟩
        rcases List.mem_cons.mp hit with rfl | hit
        · exact noBr_sub (fun x hx => List.take_subset _ _ (List.drop_subset _ _ hx)) hbr
        · have hold := hok it hit
          cases it with
          | raw s => exact hold
          | tok p v => exact ⟨hold.1, hadd.2.2.2 p v hold.2.1, hold.2.2⟩
      · intro e2 he2
        rcases hE e2 (List.mem_cons_of_mem _ he2) with ⟨_, hlt2, htext2, hty2⟩
        exact ⟨hhead e2 he2, hlt2, htext2, hty2⟩
    · rw [redactStep_neg hashHex _ (cur, m, k) e hc]
      exact ih cur m k cut items hcut hcur hres hok hm
        (fun e2 he2 => hE e2 (List.mem_cons_of_mem _ he2)) htail

theorem dean_empty (t : Str) : PIIMapping.empty.deanonymise t = t := rfl

theorem anonymise_empty_case (ext : AuditExt) (st : AnonState) (t : Str)
    (h0 : (t.isEmpty || (pyStrip t).isEmpty) = true) :
    anonymise ext st t = ((t, PIIMapping.empty), st) := by
  simp only [anonymise]
  rw [if_pos h0]

theorem anonymise_noent_case (ext : AuditExt) (st : AnonState) (t : Str)
    (h0 : ¬ (t.isEmpty || (pyStrip t).isEmpty) = true)
    (h1 : (mergeEntities (regexDetect t) []).isEmpty = true) :
    (anonymise ext st t).1 = (t, PIIMapping.empty) := by
  simp only [anonymise, Option.getD]
  rw [if_neg h0, if_pos h1]

theorem anonymise_main_case (ext : AuditExt) (st : AnonState) (t : Str)
    (h0 : ¬ (t.isEmpty || (pyStrip t).isEmpty) = true)
    (h1 : ¬ (mergeEntities (regexDetect t) []).isEmpty = true) :
    (anonymise ext st t).1 =
      ((redactFold ext.hashHex st.strategy (anonymiseEntities t [] (mkRat 55 100)) t).1,
       (redactFold ext.hashHex st.strategy (anonymiseEntities t [] (mkRat 55 100)) t).2.1) := by
  simp only [anonymise, Option.getD]
  rw [if_neg h0, if_neg h1]

/-- C1: counterexample to the unqualified round-trip claim.  The ADDRESS
pattern strips the trailing space from the matched text but the redaction
splice removes the whole span, so deanonymising the anonymised text loses
that space and the round trip fails on this input. -/
theorem C1_counterexample :
    ¬ (((anonymise auditExt0 anonStateOn
          ("Address: 12 MG Road Pune \nEnd".data)).1.2).deanonymise
        (anonymise auditExt0 anonStateOn
          ("Address: 12 MG Road Pune \nEnd".data)).1.1 =
       "Address: 12 MG Road Pune \nEnd".data) := by decide

/-- C1 (amended): under the placeholder strategy, on a bracket-free input
whose detected-and-kept entities are span-faithful (each entity lies inside
the text, has a non-empty span, and its text field equals the exact slice
of the input at its span), deanonymising the anonymised text with the
mapping returned by the same anonymise call restores the original text. -/
theorem C1_roundtrip (ext : AuditExt) (st : AnonState)
    (hstrat : st.strategy = RedactStrategy.placeholder) (t : Str)
    (hbr : noBr t)
    (hspan : ∀ e ∈ anonymiseEntities t [] (mkRat 55 100),
      e.stop ≤ t.length ∧ e.start < e.stop ∧ e.text = pySlice t e.start e.stop) :
    ((anonymise ext st t).1.2).deanonymise (anonymise ext st t).1.1 = t := by
  by_cases h0 : (t.isEmpty || (pyStrip t).isEmpty) = true
  · rw [anonymise_empty_case ext st t h0]
    exact dean_empty t
  · by_cases h1 : (mergeEntities (regexDetect t) []).isEmpty = true
    · rw [anonymise_noent_case ext st t h0 h1]
      exact dean_empty t
    · rw [anonymise_main_case ext st t h0 h1, hstrat, redactFold]
      obtain ⟨cut2, items2, hc2, hflat, hrest, hok2, hm2⟩ :=
        redact_inv ext.hashHex t hbr (anonymiseEntities t [] (mkRat 55 100))
          t PIIMapping.empty 0 t.length []
          (le_refl _)
          (by
            show t = t.take t.length ++ ([] : Str)
            rw [List.take_length, List.append_nil])
          (List.drop_length t).symm
          (by intro it hit; cases hit)
          MInv_empty
          (by
            intro e he
            rcases hspan e he with ⟨hs1, hs2, hs3⟩
            have hmem := anonymiseEntities_subset t [] _ he
            rw [List.append_nil] at hmem
            exact ⟨hs1, hs2, hs3, allPatternTypesOK _ (regexDetect_types t e hmem)⟩)
          (anonEntities_pairwise t [] _ (fun e he => (hspan e he).2.1))
      have hokA : ∀ it ∈ SegItem.raw (t.take cut2) :: items2,
          SegOK ((anonymiseEntities t [] (mkRat 55 100)).foldl
            (redactStep ext.hashHex RedactStrategy.placeholder)
            (t, PIIMapping.empty, 0)).2.1 it := by
        intro it hit
        rcases List.mem_cons.mp hit with rfl | hit
        · exact noBr_sub (fun x hx => List.take_subset _ _ hx) hbr
        · exact hok2 it hit
      have hfl0 : ((anonymiseEntities t [] (mkRat 55 100)).foldl
          (redactStep ext.hashHex RedactStrategy.placeholder)
          (t, PIIMapping.empty, 0)).1 =
          flattenSegs (SegItem.raw (t.take cut2) :: items2) := by
        rw [hflat]; rfl
      have hrs0 : restoreSegs (SegItem.raw (t.take cut2) :: items2) = t := by
        show t.take cut2 ++ restoreSegs items2 = t
        rw [hrest, List.take_append_drop]
      rw [hfl0, deanonymise_restores hm2 _ hokA, hrs0]

/-- C1 witness: a concrete PAN-bearing text on which every hypothesis of the
amended round-trip theorem holds and the round trip restores the input. -/
theorem C1_roundtrip_witness :
    ((anonymise auditExt0 anonStateOn ("PAN ABCPE1234F ok".data)).1.2).deanonymise
      (anonymise auditExt0 anonStateOn ("PAN ABCPE1234F ok".data)).1.1 =
      "PAN ABCPE1234F ok".data :=
  C1_roundtrip auditExt0 anonStateOn rfl ("PAN ABCPE1234F ok".data)
    (by decide) (by decide)
